import Mathlib

/-!
Verification of the core simulation of the zombie tower-defense repository.

The repository holds two overlapping prototype implementations of the same
game, `src/zombie_tower_defense.py` (embedded below in namespace `ZTD`) and
`src/zombie.py` (namespace `ZPy`).  Both are embedded shallowly:

* Python floats are modelled exactly by `ℚ`; Python ints by `ℤ`/`ℕ`.
* Pygame's Euclidean distance comparisons `dist(a,b) < r` (with `r ≥ 0`)
  are encoded as the equivalent `distSq a b < r ^ 2`, which keeps every
  definition computable and decidable.  `distSq` is the exact square of the
  distance, so the encoding changes no branch of the source.
* The only irrational quantity the source computes is the segment length
  `dist = direction.length()` used by the homing-movement steps.  Movement
  functions therefore take this length as an explicit argument `dist`;
  theorems that depend on actual movement carry the defining hypotheses
  `0 ≤ dist` and `dist ^ 2 = normSq direction`, which characterise it
  uniquely.  Branches that do not move (expiry, snapping, hit resolution)
  do not depend on `dist` at all.
* Object references held by projectiles/bullets are modelled as indices
  into the zombie list, with `Option` capturing a falsy/absent target.
-/

/-- A 2D point with exact rational coordinates (the source uses floats). -/
abbrev Vec : Type := ℚ × ℚ

/-- Componentwise vector addition. -/
def vadd (a b : Vec) : Vec := (a.1 + b.1, a.2 + b.2)

/-- Componentwise vector subtraction. -/
def vsub (a b : Vec) : Vec := (a.1 - b.1, a.2 - b.2)

/-- Scalar multiplication of a vector. -/
def smul (c : ℚ) (v : Vec) : Vec := (c * v.1, c * v.2)

/-- Dot product. -/
def dotp (a b : Vec) : ℚ := a.1 * b.1 + a.2 * b.2

/-- Squared Euclidean norm. -/
def normSq (v : Vec) : ℚ := v.1 ^ 2 + v.2 ^ 2

/-- Squared Euclidean distance between two points. -/
def distSq (a b : Vec) : ℚ := normSq (vsub b a)

namespace ZTD

/-- Embeds `TowerType` dataclass of zombie_tower_defense.py (colors omitted:
they feed only the renderer). -/
structure TowerType where
  cost : ℤ
  range : ℚ
  fire_rate : ℚ
  damage : ℚ
  splash_radius : ℚ
  slow : ℚ
  slow_duration : ℚ
deriving DecidableEq, Repr

/-- TOWER_TYPES entry Rifle(80, 160, 1.5, 15). -/
def rifle : TowerType := ⟨80, 160, 3/2, 15, 0, 0, 0⟩

/-- TOWER_TYPES entry Sniper(140, 260, 0.7, 45). -/
def sniper : TowerType := ⟨140, 260, 7/10, 45, 0, 0, 0⟩

/-- TOWER_TYPES entry Splash(160, 170, 0.9, 30, splash_radius=60). -/
def splashTower : TowerType := ⟨160, 170, 9/10, 30, 60, 0, 0⟩

/-- TOWER_TYPES entry Frost(120, 150, 1.2, 12, slow=0.45, slow_duration=1.8). -/
def frost : TowerType := ⟨120, 150, 6/5, 12, 0, 9/20, 9/5⟩

/-- The TOWER_TYPES table, in source order. -/
def TOWER_TYPES : List TowerType := [rifle, sniper, splashTower, frost]

/-- Zombie categories of the ZOMBIE_TYPES table. -/
inductive ZKind where
  | walker
  | runner
  | brute
  | boss
deriving DecidableEq, Repr

/-- Per-category base stats from ZOMBIE_TYPES (color omitted). -/
structure ZombieStats where
  speed : ℚ
  health : ℚ
  reward : ℤ
deriving DecidableEq, Repr

/-- The ZOMBIE_TYPES table. -/
def zombieStats : ZKind → ZombieStats
  | .walker => ⟨45, 90, 8⟩
  | .runner => ⟨80, 65, 10⟩
  | .brute => ⟨35, 200, 18⟩
  | .boss => ⟨30, 800, 80⟩

/-- State of class `Zombie` (color/radius omitted: rendering only). -/
structure Zombie where
  path : List Vec
  maxHealth : ℚ
  health : ℚ
  speed : ℚ
  reward : ℤ
  pathIndex : ℕ
  position : Vec
  slowTimer : ℚ
  slowFactor : ℚ
deriving DecidableEq, Repr, Inhabited

/-- Embeds `Zombie.__init__(path, zombie_type)`. -/
def mkZombie (path : List Vec) (k : ZKind) : Zombie :=
  let s := zombieStats k
  { path := path
    maxHealth := s.health
    health := s.health
    speed := s.speed
    reward := s.reward
    pathIndex := 0
    position := path.headI
    slowTimer := 0
    slowFactor := 1 }

/-- The slow-effect bookkeeping at the top of `Zombie.update`:
if the timer is still positive it is decremented, otherwise the
speed factor is reset to 1. -/
def slowStep (timer factor dt : ℚ) : ℚ × ℚ :=
  if 0 < timer then (timer - dt, factor) else (timer, 1)

/-- Embeds `Zombie.update(dt)`; returns the updated zombie and the escaped flag.
`dist` stands for `direction.length()` (see the file header). -/
def zombieUpdate (dist : ℚ) (z : Zombie) (dt : ℚ) : Zombie × Bool :=
  let tf := slowStep z.slowTimer z.slowFactor dt
  let z1 := { z with slowTimer := tf.1, slowFactor := tf.2 }
  if z1.path.length ≤ z1.pathIndex + 1 then (z1, true)
  else
    let target := z1.path.getD (z1.pathIndex + 1) (0, 0)
    let d := vsub target z1.position
    if dist = 0 then ({ z1 with pathIndex := z1.pathIndex + 1 }, false)
    else
      let move := z1.speed * z1.slowFactor * dt
      if dist ≤ move then
        ({ z1 with position := target, pathIndex := z1.pathIndex + 1 }, false)
      else
        ({ z1 with position := vadd z1.position (smul (move / dist) d) }, false)

/-- State of class `Projectile` (color omitted).  `target` is the held
reference to a zombie, as an index into the active zombie list; `none`
models a falsy target reference. -/
structure Projectile where
  position : Vec
  target : Option ℕ
  speed : ℚ
  damage : ℚ
  splash_radius : ℚ
  slow : ℚ
  slow_duration : ℚ
  alive : Bool
deriving DecidableEq, Repr

/-- Dereference the target of a projectile in the zombie list. -/
def targetZombie (zs : List Zombie) (p : Projectile) : Option Zombie :=
  p.target.bind fun t => zs[t]?

/-- Embeds `Projectile.update(dt)`.  `dist` stands for `direction.length()`. -/
def projUpdate (dist : ℚ) (zs : List Zombie) (p : Projectile) (dt : ℚ) : Projectile :=
  match targetZombie zs p with
  | none => { p with alive := false }
  | some tz =>
    if tz.health ≤ 0 then { p with alive := false }
    else
      let d := vsub tz.position p.position
      if dist = 0 then { p with alive := false }
      else
        let move := p.speed * dt
        if dist ≤ move then { p with position := tz.position, alive := false }
        else { p with position := vadd p.position (smul (move / dist) d) }

/-- Subtract projectile damage from a zombie's health. -/
def hitZombie (dmg : ℚ) (z : Zombie) : Zombie := { z with health := z.health - dmg }

/-- The hit-resolution block of `Game.handle_projectiles` for one projectile
that has just been updated: if it is no longer alive and its target is still
in play, damage (splash or direct) and then the slow effect are applied.
Returns the updated zombie list; the projectile is removed by the caller. -/
def resolveProj (zs : List Zombie) (p : Projectile) : List Zombie :=
  if p.alive then zs
  else
    match p.target with
    | none => zs
    | some t =>
      match zs[t]? with
      | none => zs
      | some tz =>
        if 0 < tz.health then
          let zs1 :=
            if 0 < p.splash_radius then
              zs.map fun z =>
                if distSq z.position p.position ≤ p.splash_radius ^ 2 then
                  hitZombie p.damage z
                else z
            else
              zs.set t (hitZombie p.damage tz)
          match zs1[t]? with
          | none => zs1
          | some tz1 =>
            if 0 < p.slow ∧ 0 < tz1.health then
              zs1.set t { tz1 with slowFactor := 1 - p.slow, slowTimer := p.slow_duration }
            else zs1
        else zs

/-- One projectile's pass through `Game.handle_projectiles`:
update, then resolve the hit if the projectile expired this frame. -/
def handleOne (dist : ℚ) (zs : List Zombie) (p : Projectile) (dt : ℚ) : List Zombie :=
  resolveProj zs (projUpdate dist zs p dt)

/-- State of class `Tower` (the cosmetic `pulse` field is omitted:
it feeds only the renderer). -/
structure Tower where
  ttype : TowerType
  position : Vec
  cooldown : ℚ
  level : ℕ
deriving DecidableEq, Repr

/-- Embeds `Tower.__init__(tower_type, position)`. -/
def mkTower (tt : TowerType) (pos : Vec) : Tower :=
  { ttype := tt, position := pos, cooldown := 0, level := 1 }

/-- Embeds `Tower.stats()` as a function of type and level:
damage, fire rate and range each grow linearly with level.
Python's `self.level - 1` is `level - 1` on `ℕ`; the source keeps
`level ≥ 1`, where both agree. -/
def statsOf (tt : TowerType) (level : ℕ) : ℚ × ℚ × ℚ :=
  (tt.damage + ((level - 1 : ℕ) : ℚ) * 6,
   tt.fire_rate + ((level - 1 : ℕ) : ℚ) * (1/5),
   tt.range + ((level - 1 : ℕ) : ℚ) * 10)

/-- Embeds `Tower.stats()`. -/
def towerStats (t : Tower) : ℚ × ℚ × ℚ := statsOf t.ttype t.level

/-- Embeds `Tower.upgrade_cost()` as a function of type and level:
`int(cost * (0.75 + 0.5 * level))`.  Python's `int` truncates toward
zero; cost and factor are nonnegative in every reachable state, where
truncation and `Int.floor` agree. -/
def upgradeCostOf (tt : TowerType) (level : ℕ) : ℤ :=
  ⌊(tt.cost : ℚ) * (3/4 + (1/2) * (level : ℚ))⌋

/-- Embeds `Tower.upgrade_cost()`. -/
def upgradeCost (t : Tower) : ℤ := upgradeCostOf t.ttype t.level

/-- The interval `1.0 / rate` a tower's cooldown is set to on firing. -/
def fireInterval (tt : TowerType) (level : ℕ) : ℚ := 1 / (statsOf tt level).2.1

/-- The acceptance test of the target-selection loop in `Tower.update`:
the candidate must be inside the range and strictly closer than the best
so far (`none` models the initial `float("inf")`).  Distances are
compared through their squares. -/
def betterHit (rng dsq : ℚ) : Option ℚ → Bool
  | none => decide (dsq ≤ rng ^ 2)
  | some b => decide (dsq ≤ rng ^ 2) && decide (dsq < b)

/-- The target-selection loop of `Tower.update`, over the zombie list
paired with positions (indices); erliest zombie wins ties because the
comparison with the best distance so far is strict. -/
def scanBest (pos : Vec) (rng : ℚ) : List (ℕ × Zombie) → Option ℕ → Option ℚ → Option ℕ
  | [], best, _ => best
  | (i, z) :: rest, best, bestSq =>
    let dsq := distSq z.position pos
    if betterHit rng dsq bestSq then scanBest pos rng rest (some i) (some dsq)
    else scanBest pos rng rest best bestSq

/-- Index of the zombie `Tower.update` targets, if any. -/
def bestTarget (pos : Vec) (rng : ℚ) (zs : List Zombie) : Option ℕ :=
  scanBest pos rng zs.enum none none

/-- Embeds `Tower.update(dt, zombies, projectiles)`: decrement the cooldown
(clamped at 0), pick the nearest zombie in range, and fire when the
cooldown has reached 0, resetting it to `1.0 / rate`.  Returns the
updated tower and the spawned projectile, if any. -/
def towerUpdate (t : Tower) (zs : List Zombie) (dt : ℚ) : Tower × Option Projectile :=
  let c := max 0 (t.cooldown - dt)
  let s := towerStats t
  match bestTarget t.position s.2.2 zs with
  | some i =>
    if c ≤ 0 then
      ({ t with cooldown := 1 / s.2.1 },
       some { position := t.position, target := some i, speed := 320, damage := s.1,
              splash_radius := t.ttype.splash_radius, slow := t.ttype.slow,
              slow_duration := t.ttype.slow_duration, alive := true })
    else ({ t with cooldown := c }, none)
  | none => ({ t with cooldown := c }, none)

/-- The fixed level path built in `Game.reset_game`. -/
def gamePath : List Vec :=
  [(0, 140), (200, 140), (200, 360), (420, 360),
   (420, 180), (700, 180), (700, 500), (980, 500),
   (980, 260), (1100, 260)]

/-- Embeds `clamp(value, low, high)`. -/
def clampQ (value low high : ℚ) : ℚ := max low (min high value)

/-- Squared version of `Game.point_to_segment_distance`: the exact square
of the distance from `p` to the closest point of segment `[a, b]`. -/
def segDistSq (p a b : Vec) : ℚ :=
  let ap := vsub p a
  let ab := vsub b a
  let len2 := normSq ab
  if len2 = 0 then normSq ap
  else
    let t := clampQ (dotp ap ab / len2) 0 1
    distSq p (vadd a (smul t ab))

/-- Embeds `PLAY_AREA.contains(Rect(x - 16, y - 16, 32, 32))` with
`PLAY_AREA = Rect(0, 0, 1100, 620)`: the 32×32 footprint centred at the
position must lie inside the play area. -/
def inPlayArea (pos : Vec) : Bool :=
  decide (0 ≤ pos.1 - 16) && decide (0 ≤ pos.2 - 16) &&
  decide (pos.1 + 16 ≤ 1100) && decide (pos.2 + 16 ≤ 620)

/-- Embeds `Game.can_place(position)`: inside the play area, not within 36 of an
existing tower, not within 40 of any path segment.  The early returns of
the source become a `&&` chain. -/
def canPlace (towers : List Tower) (pos : Vec) : Bool :=
  inPlayArea pos &&
  towers.all (fun t => !decide (distSq t.position pos < 36 ^ 2)) &&
  (List.range (gamePath.length - 1)).all fun i =>
    !decide (segDistSq pos (gamePath.getD i (0, 0)) (gamePath.getD (i + 1) (0, 0)) < 40 ^ 2)

/-- The grid snap of a click coordinate:
`pos // GRID_SIZE * GRID_SIZE + GRID_SIZE // 2` with `GRID_SIZE = 50`
(Python `//` is floor division, `Int.fdiv`). -/
def snap (v : ℤ) : ℤ := Int.fdiv v 50 * 50 + 25

/-- The slice of game state that `Game.handle_game_click` and the
upgrade key touch: the tower list, the coin purse and the selection. -/
structure GState where
  towers : List Tower
  coins : ℤ
  selectedTower : Option ℕ
deriving DecidableEq, Repr

/-- Embeds `TOWER_TYPES[i]`; out-of-range indices raise in Python and are given
the harmless default here (no reachable state uses them for placement). -/
def towerTypeAt (i : ℕ) : TowerType := TOWER_TYPES.getD i rifle

/-- The UI-panel branch of `Game.handle_game_click` (clicks below the play
area): select tower type `i` when its card is hit and the player can
afford it; the loop has no break, so the last matching card wins.  Coins
are never modified here. -/
def panelSelect (g : GState) (pos : ℤ × ℤ) : GState :=
  (List.range TOWER_TYPES.length).foldl
    (fun g' (i : ℕ) =>
      let left : ℤ := 420 + (i : ℤ) * 160
      let top : ℤ := 620 + 10
      if left ≤ pos.1 ∧ pos.1 < left + 140 ∧ top ≤ pos.2 ∧ pos.2 < top + 70 ∧
          (towerTypeAt i).cost ≤ g'.coins then
        { g' with selectedTower := some i }
      else g')
    g

/-- The select-an-existing-tower branch at the bottom of
`Game.handle_game_click`: first tower within distance 20 of the click. -/
def selectExisting (g : GState) (pos : ℤ × ℤ) : GState :=
  let p : Vec := ((pos.1 : ℚ), (pos.2 : ℚ))
  match (g.towers.enum.find? fun iz => decide (distSq iz.2.position p < 20 ^ 2)) with
  | some iz => { g with selectedTower := some iz.1 }
  | none => g

/-- The placement branch of `Game.handle_game_click`, HEAD side of the
merge conflict in the source: the cost is re-checked against the purse
before the tower is placed. -/
def placeClickHead (g : GState) (i : ℕ) (pos : ℤ × ℤ) : GState :=
  let sp : Vec := ((snap pos.1 : ℚ), (snap pos.2 : ℚ))
  if canPlace g.towers sp then
    let tt := towerTypeAt i
    if tt.cost ≤ g.coins then
      { g with towers := g.towers ++ [mkTower tt sp], coins := g.coins - tt.cost }
    else g
  else g

/-- The placement branch of `Game.handle_game_click`, `main` side of the
merge conflict in the source: the tower is placed and paid for with no
funds check at placement time. -/
def placeClickMain (g : GState) (i : ℕ) (pos : ℤ × ℤ) : GState :=
  let sp : Vec := ((snap pos.1 : ℚ), (snap pos.2 : ℚ))
  if canPlace g.towers sp then
    let tt := towerTypeAt i
    { g with towers := g.towers ++ [mkTower tt sp], coins := g.coins - tt.cost }
  else g

/-- Embeds `Game.handle_game_click(pos)`, with the HEAD side of the conflicted
placement branch. -/
def handleGameClickHead (g : GState) (pos : ℤ × ℤ) : GState :=
  if 620 < pos.2 then panelSelect g pos
  else
    match g.selectedTower with
    | some i => placeClickHead g i pos
    | none => selectExisting g pos

/-- Embeds `Game.handle_game_click(pos)`, with the `main` side of the conflicted
placement branch. -/
def handleGameClickMain (g : GState) (pos : ℤ × ℤ) : GState :=
  if 620 < pos.2 then panelSelect g pos
  else
    match g.selectedTower with
    | some i => placeClickMain g i pos
    | none => selectExisting g pos

/-- The `K_u` branch of `Game.handle_key`: upgrade the selected tower if
the purse covers `upgrade_cost()`.  (`Tower.upgrade` only increments the
level; the derived stats are recomputed from it.)  Indexing a missing
tower raises in Python; here it leaves the state unchanged — either way
no coin moves. -/
def handleKeyU (g : GState) : GState :=
  match g.selectedTower with
  | none => g
  | some i =>
    match g.towers[i]? with
    | none => g
    | some tw =>
      let cost := upgradeCost tw
      if cost ≤ g.coins then
        { g with coins := g.coins - cost,
                 towers := g.towers.set i { tw with level := tw.level + 1 } }
      else g

/-- Embeds `Game.make_wave(wave_number)` before the final `random.shuffle`: the
spawn queue as built, a list of (category, inter-spawn delay) pairs.  The
shuffle permutes this list; theorems quantify over any permutation. -/
def makeWave (n : ℕ) : List (ZKind × ℚ) :=
  List.replicate (6 + n * 2) (ZKind.walker, 4/5)
    ++ (if 2 ≤ n then List.replicate (2 + n / 2) (ZKind.runner, 7/10) else [])
    ++ (if 4 ≤ n then List.replicate (1 + n / 3) (ZKind.brute, 7/5) else [])
    ++ (if n % 5 = 0 then [(ZKind.boss, 11/5)] else [])

/-- How many spawn-queue entries of category `k` a queue holds. -/
def countKind (q : List (ZKind × ℚ)) (k : ZKind) : ℕ := (q.map Prod.fst).count k

/-- Embeds `load_high_score()` of zombie_tower_defense.py.  The persisted file is
modelled as `Option ℤ` (`none` = missing); a missing or unreadable file
yields 0. -/
def loadHS (s : Option ℤ) : ℤ := s.getD 0

/-- Embeds `save_high_score(score)` of zombie_tower_defense.py: the stored value
is overwritten unconditionally (the success path of the `try`). -/
def saveHS (score : ℤ) (_s : Option ℤ) : Option ℤ := some score

end ZTD

namespace ZPy

/-- Embeds `load_high_score()` of zombie.py: the stored file modelled as
`Option ℤ` (`none` = missing), a missing file yields 0. -/
def loadHS (s : Option ℤ) : ℤ := s.getD 0

/-- Embeds `save_high_score(score)` of zombie.py: the file is written only when
the score beats the stored high score. -/
def saveHS (score : ℤ) (s : Option ℤ) : Option ℤ :=
  if loadHS s < score then some score else s

/-- Tower categories of zombie.py. -/
inductive TKind where
  | basic
  | sniper
  | aoe
  | slow
deriving DecidableEq, Repr

/-- State of class `Tower` (color, size, pygame geometry omitted;
the `target` field is recomputed by `find_target` every frame before
use and is not needed by the claims below). -/
structure Tower where
  level : ℕ
  range : ℤ
  damage : ℤ
  fire_rate : ℤ
  cost : ℤ
  upgrade_cost : ℤ
deriving DecidableEq, Repr

/-- Embeds `Tower.__init__(x, y, tower_type)`: the per-type base-stat table. -/
def mkTower : TKind → Tower
  | .basic => { level := 1, range := 150, damage := 10, fire_rate := 60, cost := 100, upgrade_cost := 50 }
  | .sniper => { level := 1, range := 300, damage := 50, fire_rate := 120, cost := 200, upgrade_cost := 100 }
  | .aoe => { level := 1, range := 100, damage := 20, fire_rate := 90, cost := 150, upgrade_cost := 75 }
  | .slow => { level := 1, range := 120, damage := 5, fire_rate := 30, cost := 120, upgrade_cost := 60 }

/-- Embeds `Tower.upgrade()`: level and stats bumped, the inter-shot frame count
floored at 10, the next upgrade 50 dearer. -/
def upgradeT (t : Tower) : Tower :=
  { t with level := t.level + 1,
           damage := t.damage + 10,
           range := t.range + 20,
           fire_rate := max 10 (t.fire_rate - 10),
           upgrade_cost := t.upgrade_cost + 50 }

/-- Zombie categories of zombie.py. -/
inductive PKind where
  | normal
  | fast
  | tanky
  | boss
deriving DecidableEq, Repr

/-- The fixed `PATH` of zombie.py (16 waypoints). -/
def PATH : List Vec :=
  [(0, 300), (100, 300), (100, 200), (200, 200), (200, 400),
   (300, 400), (300, 100), (400, 100), (400, 500), (500, 500),
   (500, 200), (600, 200), (600, 400), (700, 400), (700, 300),
   (800, 300)]

/-- State of class `Zombie` of zombie.py (color/radius omitted). -/
structure Zombie where
  pos : Vec
  pathIndex : ℕ
  health : ℤ
  maxHealth : ℤ
  speed : ℚ
  alive : Bool
  ztype : PKind
deriving DecidableEq, Repr

/-- Embeds `Zombie.__init__(zombie_type)`. -/
def mkZombie (k : PKind) : Zombie :=
  let hs : ℤ × ℚ :=
    match k with
    | .normal => (50, 1)
    | .fast => (30, 2)
    | .tanky => (100, 1/2)
    | .boss => (500, 4/5)
  { pos := PATH.headI, pathIndex := 1, health := hs.1, maxHealth := hs.1,
    speed := hs.2, alive := true, ztype := k }

/-- Embeds `Zombie.update()`: walk toward `PATH[path_index]` at `speed` per
frame, snapping when closer than one step; returns `true` when the path
is exhausted.  `dist` stands for `math.hypot(dx, dy)` (see the file
header); the escape signal does not depend on it. -/
def zUpdate (dist : ℚ) (z : Zombie) : Zombie × Bool :=
  if z.pathIndex < PATH.length then
    let target := PATH.getD z.pathIndex (0, 0)
    let d := vsub target z.pos
    if dist < z.speed then ({ z with pos := target, pathIndex := z.pathIndex + 1 }, false)
    else ({ z with pos := vadd z.pos (smul (z.speed / dist) d) }, false)
  else (z, true)

/-- State of class `Bullet` (color/radius omitted).  The held zombie
reference is an index into the zombie list. -/
structure Bullet where
  pos : Vec
  target : ℕ
  damage : ℤ
  speed : ℚ
  btype : TKind
deriving DecidableEq, Repr

/-- Mark a zombie dead when its health has run out. -/
def refreshAlive (z : Zombie) : Zombie :=
  if z.health ≤ 0 then { z with alive := false } else z

/-- Embeds `Bullet.hit(zombie, zombies)`: full damage to the target; for an AoE
bullet, half (floor) damage to every other zombie strictly within 50 of
the target's position; for a slow bullet, the target's speed is halved
(permanently — zombie.py has no slow timer). -/
def bulletHit (zs : List Zombie) (b : Bullet) : List Zombie :=
  match zs[b.target]? with
  | none => zs
  | some tz =>
    let tz2 := refreshAlive { tz with health := tz.health - b.damage }
    let zs1 := zs.set b.target tz2
    if b.btype = TKind.aoe then
      zs1.enum.map fun iz =>
        if iz.1 ≠ b.target ∧ distSq iz.2.pos tz.pos < 50 ^ 2 then
          refreshAlive { iz.2 with health := iz.2.health - Int.fdiv b.damage 2 }
        else iz.2
    else if b.btype = TKind.slow then
      zs1.set b.target { tz2 with speed := tz2.speed * (1/2) }
    else zs1

/-- Embeds `Bullet.update(zombies)`: a bullet whose target is dead is dropped
with no effect; otherwise it homes in and resolves `hit` when within one
step of the target.  Returns (remove?, bullet, zombies); `dist` stands
for `math.hypot(dx, dy)`. -/
def bulletUpdate (dist : ℚ) (zs : List Zombie) (b : Bullet) : Bool × Bullet × List Zombie :=
  match zs[b.target]? with
  | none => (true, b, zs)
  | some tz =>
    if tz.alive = false then (true, b, zs)
    else
      let d := vsub tz.pos b.pos
      if dist < b.speed then (true, b, bulletHit zs b)
      else (false, { b with pos := vadd b.pos (smul (b.speed / dist) d) }, zs)

/-- The cost table read off `Tower(0, 0, selected_tower_type).cost`. -/
def towerCost (k : TKind) : ℤ := (mkTower k).cost

/-- The on-path test of the placement branch in `game_loop`: the click is
within `PATH_WIDTH / 2 = 20` of either endpoint of some path segment
(the source checks the waypoints only, not the segment bodies). -/
def onPathCheck (pos : Vec) : Bool :=
  (List.range (PATH.length - 1)).any fun i =>
    decide (distSq pos (PATH.getD i (0, 0)) < 20 ^ 2) ||
    decide (distSq pos (PATH.getD (i + 1) (0, 0)) < 20 ^ 2)

/-- The slice of `game_loop` state the placement branch touches. -/
structure PState where
  towers : List Tower
  coins : ℤ
  selected : Option TKind
deriving DecidableEq, Repr

/-- The tower-placement branch of the click handler in `game_loop`
(lines 466-479): with a tower type selected and the click above the UI
strip, place and pay when funds suffice and the on-path test passes. -/
def zpPlace (g : PState) (pos : ℤ × ℤ) : PState :=
  match g.selected with
  | none => g
  | some k =>
    if pos.2 < 600 - 60 then
      let cost := towerCost k
      if cost ≤ g.coins then
        if onPathCheck ((pos.1 : ℚ), (pos.2 : ℚ)) then g
        else { towers := g.towers ++ [mkTower k], coins := g.coins - cost, selected := none }
      else g
    else g

/-- The upgrade branch of the click handler in `game_loop` (line 489):
pay `upgrade_cost` and upgrade, guarded by the funds check. -/
def zpUpgrade (g : PState) (i : ℕ) : PState :=
  match g.towers[i]? with
  | none => g
  | some tw =>
    if tw.upgrade_cost ≤ g.coins then
      { g with coins := g.coins - tw.upgrade_cost, towers := g.towers.set i (upgradeT tw) }
    else g

/-- Embeds `MAX_WAVES`. -/
def MAX_WAVES : ℕ := 10

/-- The slice of `game_loop` state its per-frame update section
(lines 494-533) reads or writes, plus the persisted high-score store.
Rendering state, buttons and the bullet/tower lists are untouched by
those lines.  Power-ups are (position, is_coin) pairs. -/
structure GS where
  lives : ℤ
  coins : ℤ
  score : ℤ
  wave : ℕ
  spawning : Bool
  betweenWaves : Bool
  zombiesToSpawn : ℤ
  spawnTimer : ℤ
  spawnInterval : ℤ
  zombies : List Zombie
  powerUps : List (Vec × Bool)
  store : Option ℤ
deriving DecidableEq, Repr

/-- Result of one pass through the update section: carry on with a new
state, or leave `game_loop` through the win/lose `game_over` exits, each
recording the final score and the persisted store. -/
inductive Outcome where
  | cont (gs : GS)
  | won (score : ℤ) (store : Option ℤ)
  | lost (score : ℤ) (store : Option ℤ)
deriving DecidableEq, Repr

/-- The spawn step under `if spawning:` (lines 495-502): bump the frame
timer and spawn the next zombie when it expires.  `choice` models
`random.choice(["normal", "fast", "tanky"])`; the last spawn of every
5th wave is forced to a boss. -/
def spawnInner (choice : PKind) (gs : GS) : GS :=
  let st := gs.spawnTimer + 1
  if gs.spawnInterval ≤ st ∧ 0 < gs.zombiesToSpawn then
    let k := if gs.wave % 5 = 0 ∧ gs.zombiesToSpawn = 1 then PKind.boss else choice
    { gs with spawnTimer := 0, zombiesToSpawn := gs.zombiesToSpawn - 1,
              zombies := gs.zombies ++ [mkZombie k] }
  else { gs with spawnTimer := st }

/-- The wave-completion check (lines 503-511): once the queue is spent
and the field is clear, close the wave, credit the survival bonus and —
when the wave counter has passed `MAX_WAVES` — persist the high score
and leave through the win exit. -/
def waveCheck (gs : GS) : Outcome :=
  if gs.zombiesToSpawn ≤ 0 ∧ gs.zombies = [] then
    let wave2 := gs.wave + 1
    let score2 := gs.score + 100 * (gs.wave : ℤ)
    if MAX_WAVES < wave2 then .won score2 (saveHS score2 gs.store)
    else .cont { gs with spawning := false, betweenWaves := true,
                         wave := wave2, score := score2 }
  else .cont gs

/-- Life cost of an escaping zombie: `1 if zombie.type != "boss" else 5`. -/
def penalty (z : Zombie) : ℤ := if z.ztype = PKind.boss then 5 else 1

/-- The zombie-update loop (lines 513-533): dead zombies pay out coins,
score and a possible power-up drop and are removed; live zombies advance,
and one that exhausts the path is removed and costs lives — dropping to
`lives ≤ 0` persists the high score and leaves through the loss exit.
`dists i`, `drops i`, `dkinds i` stand for the `i`-th zombie's
`math.hypot` step length, its `random.random() < 0.1` drop roll and its
`random.choice(["coin", "health"])` kind roll. -/
def zombieLoop (dists : ℕ → ℚ) (drops dkinds : ℕ → Bool) (gs : GS) :
    ℕ → List Zombie → List Zombie → ℤ → ℤ → ℤ → List (Vec × Bool) → Outcome
  | _, [], kept, lives, coins, score, pus =>
    .cont { gs with zombies := kept.reverse, lives := lives, coins := coins,
                    score := score, powerUps := gs.powerUps ++ pus }
  | i, z :: rest, kept, lives, coins, score, pus =>
    if z.alive = false then
      let pus2 := if drops i then pus ++ [(z.pos, dkinds i)] else pus
      zombieLoop dists drops dkinds gs (i + 1) rest kept lives (coins + 20) (score + 10) pus2
    else
      let zu := zUpdate (dists i) z
      if zu.2 then
        let lives2 := lives - penalty z
        if lives2 ≤ 0 then .lost score (saveHS score gs.store)
        else zombieLoop dists drops dkinds gs (i + 1) rest kept lives2 coins score pus
      else zombieLoop dists drops dkinds gs (i + 1) rest (zu.1 :: kept) lives coins score pus

/-- The state after the `if spawning:` block, lines 495-511 up to but
excluding the terminal exit (which `updatePhase` takes care of). -/
def postSpawn (choice : PKind) (gs : GS) : GS :=
  if gs.spawning then spawnInner choice gs else gs

/-- The full update section of one `game_loop` frame (lines 494-533):
the spawn block with its win exit, then the zombie loop with its loss
exit.  The later tower/bullet/power-up phases of the frame never
terminate the loop. -/
def updatePhase (choice : PKind) (dists : ℕ → ℚ) (drops dkinds : ℕ → Bool) (gs : GS) :
    Outcome :=
  let r := if gs.spawning then waveCheck (spawnInner choice gs) else Outcome.cont gs
  match r with
  | .cont gs2 => zombieLoop dists drops dkinds gs2 0 gs2.zombies [] gs2.lives gs2.coins gs2.score []
  | out => out

/-- Total life cost of the zombies that will take the escape branch this
frame: the live ones whose path index has run off the end of `PATH`. -/
def escPenalty (l : List Zombie) : ℤ :=
  ((l.filter fun z => z.alive && !decide (z.pathIndex < PATH.length)).map penalty).sum

end ZPy

/-- Helper: the zombie.py persistence pair satisfies a max round-trip. -/
lemma zpy_load_save (n : ℤ) (s : Option ℤ) :
    ZPy.loadHS (ZPy.saveHS n s) = max n (ZPy.loadHS s) := by
  unfold ZPy.saveHS
  split
  · simp only [ZPy.loadHS, Option.getD_some] at *
    omega
  · simp only [ZPy.loadHS] at *
    omega

/-- C9 counterexample: with 100 already stored,
`save_high_score(0)` of zombie_tower_defense.py leaves 0 in the store,
not `max(0, 100) = 100` — its save overwrites unconditionally. -/
theorem c9_counterexample :
    ZTD.loadHS (ZTD.saveHS 0 (some 100)) = 0 ∧
    ZTD.loadHS (ZTD.saveHS 0 (some 100)) ≠ max 0 100 := by
  constructor
  · rfl
  · decide

/-- C9 (amended): zombie.py's `save_high_score` satisfies the round-trip
`load_high_score() = max(N, previously_saved)` for every argument; the
zombie_tower_defense.py variant overwrites unconditionally, but each of
its call sites passes `max(high_score, score)`, so the value it persists
is `max(high_score, score)` and never drops below the prior high score. -/
theorem c9_round_trip :
    (∀ (n : ℤ) (s : Option ℤ), ZPy.loadHS (ZPy.saveHS n s) = max n (ZPy.loadHS s)) ∧
    (∀ (hs sc : ℤ) (st : Option ℤ),
      ZTD.loadHS (ZTD.saveHS (max hs sc) st) = max hs sc ∧ hs ≤ ZTD.loadHS (ZTD.saveHS (max hs sc) st)) := by
  refine ⟨zpy_load_save, fun hs sc st => ⟨rfl, ?_⟩⟩
  show hs ≤ max hs sc
  exact le_max_left hs sc

/-- C10: for every wave number `n ≥ 1` and any shuffle `q` of the built
spawn queue, the queue holds exactly `6 + 2n` walkers, `2 + n/2` runners
once `n ≥ 2`, `1 + n/3` brutes once `n ≥ 4` and exactly one boss exactly
when `5 ∣ n`; the shuffle only permutes, so these counts are invariant. -/
theorem c10_wave_composition (n : ℕ) (q : List (ZTD.ZKind × ℚ)) (_h1 : 1 ≤ n)
    (hq : q.Perm (ZTD.makeWave n)) :
    ZTD.countKind q ZTD.ZKind.walker = 6 + n * 2 ∧
    ZTD.countKind q ZTD.ZKind.runner = (if 2 ≤ n then 2 + n / 2 else 0) ∧
    ZTD.countKind q ZTD.ZKind.brute = (if 4 ≤ n then 1 + n / 3 else 0) ∧
    ZTD.countKind q ZTD.ZKind.boss = (if n % 5 = 0 then 1 else 0) := by
  have hc : ∀ k, ZTD.countKind q k = ZTD.countKind (ZTD.makeWave n) k := fun k =>
    (hq.map Prod.fst).count_eq k
  rw [hc, hc, hc, hc]
  unfold ZTD.countKind ZTD.makeWave
  refine ⟨?_, ?_, ?_, ?_⟩ <;>
    simp [List.map_append, List.count_append, List.count_replicate, apply_ite (List.map Prod.fst),
      apply_ite (List.count _), List.count_singleton]

/-- C10 witness: wave 5 (a boss wave), with the identity shuffle:
16 walkers, 4 runners, 2 brutes, 1 boss. -/
theorem c10_witness :
    ZTD.countKind (ZTD.makeWave 5) ZTD.ZKind.walker = 6 + 5 * 2 ∧
    ZTD.countKind (ZTD.makeWave 5) ZTD.ZKind.runner = (if 2 ≤ 5 then 2 + 5 / 2 else 0) ∧
    ZTD.countKind (ZTD.makeWave 5) ZTD.ZKind.brute = (if 4 ≤ 5 then 1 + 5 / 3 else 0) ∧
    ZTD.countKind (ZTD.makeWave 5) ZTD.ZKind.boss = (if 5 % 5 = 0 then 1 else 0) :=
  c10_wave_composition 5 (ZTD.makeWave 5) (by norm_num) (List.Perm.refl _)

/-- Helper: writing the slow fields of one zombie changes no health. -/
lemma health_set_slow (zs1 : List ZTD.Zombie) (t : ℕ) (s dur : ℚ) (tz1 : ZTD.Zombie)
    (h : zs1[t]? = some tz1) (i : ℕ) :
    ((zs1.set t { tz1 with slowFactor := s, slowTimer := dur })[i]?.map ZTD.Zombie.health) =
      zs1[i]?.map ZTD.Zombie.health := by
  have hlt : t < zs1.length := by
    by_contra hge
    rw [List.getElem?_eq_none (le_of_not_lt hge)] at h
    exact Option.noConfusion h
  rcases eq_or_ne t i with rfl | hne
  · rw [List.getElem?_set_eq_of_lt _ hlt, h]
    rfl
  · rw [List.getElem?_set_ne hne]

/-- Helper: `refreshAlive` never changes health. -/
lemma refreshAlive_health (z : ZPy.Zombie) : (ZPy.refreshAlive z).health = z.health := by
  unfold ZPy.refreshAlive
  split <;> rfl

/-- A test zombie for the C1 scenario, parameterised by position. -/
def c1z (p : Vec) : ZTD.Zombie :=
  { path := [], maxHealth := 100, health := 100, speed := 45, reward := 8,
    pathIndex := 0, position := p, slowTimer := 0, slowFactor := 1 }

/-- The C1 scenario splash projectile: at its impact point (its target's
position), splash radius 60, damage 30. -/
def c1proj : ZTD.Projectile :=
  { position := (0, 0), target := some 0, speed := 320, damage := 30,
    splash_radius := 60, slow := 0, slow_duration := 0, alive := true }

/-- C1 counterexample: in the claim's own scenario (splash_radius = 60,
primary at the impact point, second zombie at distance 50, third at 80),
the second zombie ends at health 70 — it takes the projectile's full 30
damage, not the claimed halved 15. -/
theorem c1_counterexample :
    (ZTD.handleOne 0 [c1z (0, 0), c1z (50, 0), c1z (80, 0)] c1proj 1).map
        ZTD.Zombie.health = [70, 70, 100] ∧
    (70 : ℚ) ≠ 100 - 30 / 2 := by
  constructor
  · norm_num [ZTD.handleOne, ZTD.projUpdate, ZTD.resolveProj, ZTD.targetZombie,
      ZTD.hitZombie, c1z, c1proj, distSq, normSq, vsub]
  · norm_num

/-- C1 (amended): when a projectile with splash radius > 0 resolves,
every active zombie within the splash radius of the impact point — the
primary target included — takes the projectile's full direct damage (the
code does not halve splash damage), and every zombie beyond the radius
takes none.  In zombie.py's variant (`Bullet.hit` with type "aoe"), the
primary target takes full damage and every other zombie strictly within
the fixed radius 50 of the target takes floor-halved damage. -/
theorem c1_splash_full_damage :
    (∀ (zs : List ZTD.Zombie) (p : ZTD.Projectile) (t : ℕ) (tz : ZTD.Zombie),
      p.alive = false → p.target = some t → zs[t]? = some tz →
      0 < tz.health → 0 < p.splash_radius →
      ∀ i : ℕ, ((ZTD.resolveProj zs p)[i]?.map ZTD.Zombie.health) =
        zs[i]?.map fun z =>
          z.health -
            (if distSq z.position p.position ≤ p.splash_radius ^ 2 then p.damage else 0)) ∧
    (∀ (zs : List ZPy.Zombie) (b : ZPy.Bullet) (tz : ZPy.Zombie),
      b.btype = ZPy.TKind.aoe → zs[b.target]? = some tz →
      ((ZPy.bulletHit zs b)[b.target]?.map ZPy.Zombie.health) = some (tz.health - b.damage) ∧
      ∀ i : ℕ, i ≠ b.target →
        ((ZPy.bulletHit zs b)[i]?.map ZPy.Zombie.health) =
          zs[i]?.map fun z =>
            z.health - (if distSq z.pos tz.pos < 50 ^ 2 then Int.fdiv b.damage 2 else 0)) := by
  constructor
  · intro zs p t tz halive ht htz hh hs i
    unfold ZTD.resolveProj
    rw [halive]
    simp only [Bool.false_eq_true, if_false, ht, htz, if_pos hh, if_pos hs]
    set zs1 := zs.map fun z =>
      if distSq z.position p.position ≤ p.splash_radius ^ 2 then ZTD.hitZombie p.damage z
      else z with hzs1
    have hmain : zs1[i]?.map ZTD.Zombie.health =
        zs[i]?.map fun z =>
          z.health -
            (if distSq z.position p.position ≤ p.splash_radius ^ 2 then p.damage else 0) := by
      rw [hzs1, List.getElem?_map]
      cases zs[i]? with
      | none => rfl
      | some z =>
        simp only [Option.map_some']
        congr 1
        split
        · rfl
        · show z.health = z.health - 0
          ring
    split
    · exact hmain
    · rename_i tz1 h1
      split
      · rw [health_set_slow zs1 t (1 - p.slow) p.slow_duration tz1 h1 i]
        exact hmain
      · exact hmain
  · intro zs b tz hb htz
    have hlt : b.target < zs.length := by
      by_contra hge
      rw [List.getElem?_eq_none (le_of_not_lt hge)] at htz
      exact Option.noConfusion htz
    unfold ZPy.bulletHit
    simp only [htz, hb, reduceIte]
    constructor
    · rw [List.getElem?_map, List.getElem?_enum,
        List.getElem?_set_eq_of_lt _ (by simpa using hlt)]
      simp only [Option.map_some']
      rw [if_neg (by simp)]
      simp [refreshAlive_health]
    · intro i hi
      rw [List.getElem?_map, List.getElem?_enum, List.getElem?_set_ne (Ne.symm hi)]
      cases zs[i]? with
      | none => rfl
      | some z =>
        simp only [Option.map_some', Option.some_inj]
        by_cases hd : distSq z.pos tz.pos < 50 ^ 2
        · rw [if_pos ⟨hi, hd⟩, refreshAlive_health, if_pos hd]
        · have hcond : ¬ ((i, z).1 ≠ b.target ∧ distSq (i, z).2.pos tz.pos < 50 ^ 2) :=
            fun hc => hd hc.2
          rw [if_neg hcond, if_neg hd]
          show z.health = z.health - 0
          ring

/-- The C1 zombie roster: primary at the impact point, one at distance
50, one at distance 80. -/
def c1zs : List ZTD.Zombie := [c1z (0, 0), c1z (50, 0), c1z (80, 0)]

/-- The C1 projectile as it reaches resolution (alive already false). -/
def c1pdead : ZTD.Projectile :=
  { position := (0, 0), target := some 0, speed := 320, damage := 30,
    splash_radius := 60, slow := 0, slow_duration := 0, alive := false }

/-- C1 witness: the amended rule evaluated on the claim's scenario, at
the zombie 50 away from the impact point. -/
theorem c1_witness :
    ((ZTD.resolveProj c1zs c1pdead)[1]?.map ZTD.Zombie.health) =
      c1zs[1]?.map fun z =>
        z.health -
          (if distSq z.position c1pdead.position ≤ c1pdead.splash_radius ^ 2 then
            c1pdead.damage else 0) :=
  c1_splash_full_damage.1 c1zs c1pdead 0 (c1z (0, 0)) rfl rfl rfl
    (by norm_num [c1z]) (by norm_num [c1pdead]) 1

namespace ZTD

/-- Iterate the per-frame slow bookkeeping of `Zombie.update` over a
list of frame deltas. -/
def slowIter (dts : List ℚ) (tf : ℚ × ℚ) : ℚ × ℚ :=
  dts.foldl (fun acc dt => slowStep acc.1 acc.2 dt) tf

end ZTD

/-- Helper: once the slow timer is no longer positive and the factor has
been reset, further frames change nothing. -/
lemma slowIter_of_nonpos (l : List ℚ) (t : ℚ) (ht : ¬ 0 < t) :
    ZTD.slowIter l (t, 1) = (t, 1) := by
  induction l with
  | nil => rfl
  | cons a rest ih =>
    show ZTD.slowIter rest (ZTD.slowStep t 1 a) = (t, 1)
    rw [ZTD.slowStep, if_neg ht]
    exact ih

/-- Helper: the speed factor after `k` frames of the slow bookkeeping,
started right after a slow application `(duration d, factor f)`: still
`f` while the time consumed before the current frame is below `d`, reset
to 1 from the first frame that starts at or past `d`. -/
lemma slowIter_factor (dts : List ℚ) (d f : ℚ) (hd : 0 < d)
    (hnn : ∀ x ∈ dts, 0 ≤ x) : ∀ k, k ≤ dts.length →
    (ZTD.slowIter (dts.take k) (d, f)).2 =
      if (dts.take (k - 1)).sum < d then f else 1 := by
  induction dts generalizing d with
  | nil =>
    intro k _
    simp [ZTD.slowIter, hd]
  | cons a rest ih =>
    intro k hk
    match k with
    | 0 => simp [ZTD.slowIter, hd]
    | (j + 1) =>
      have hstep : ZTD.slowIter ((a :: rest).take (j + 1)) (d, f) =
          ZTD.slowIter (rest.take j) (d - a, f) := by
        show ZTD.slowIter (rest.take j) (ZTD.slowStep d f a) = _
        rw [ZTD.slowStep, if_pos hd]
      rw [hstep]
      have ha : 0 ≤ a := hnn a (List.mem_cons_self a rest)
      have hrest : ∀ x ∈ rest, 0 ≤ x := fun x hx => hnn x (List.mem_cons_of_mem a hx)
      by_cases hda : 0 < d - a
      · rw [ih (d - a) hda hrest j (by simpa using hk)]
        match j with
        | 0 => simp [hd, hda]
        | (m + 1) =>
          simp only [Nat.add_sub_cancel, List.take_succ_cons, List.sum_cons]
          exact if_congr (by constructor <;> intro h <;> linarith) rfl rfl
      · match j with
        | 0 =>
          simp [ZTD.slowIter, hd]
        | (m + 1) =>
          have hrlen : m + 1 ≤ rest.length := by simpa using hk
          obtain ⟨b, rest', rfl⟩ : ∃ b rest', rest = b :: rest' := by
            cases rest with
            | nil => exact absurd hrlen (by simp)
            | cons b r => exact ⟨b, r, rfl⟩
          have h1 : ZTD.slowIter ((b :: rest').take (m + 1)) (d - a, f) =
              ZTD.slowIter (rest'.take m) (d - a, 1) := by
            show ZTD.slowIter (rest'.take m) (ZTD.slowStep (d - a) f b) = _
            rw [ZTD.slowStep, if_neg hda]
          have h2 : (ZTD.slowIter (rest'.take m) (d - a, 1)).2 = 1 := by
            rw [slowIter_of_nonpos _ _ hda]
          rw [h1, h2]
          have hsum : 0 ≤ ((b :: rest').take m).sum :=
            List.sum_nonneg fun x hx => hrest x (List.mem_of_mem_take hx)
          have hle : d - a ≤ 0 := le_of_not_lt hda
          have hns : ¬ (((a :: b :: rest').take (m + 1 + 1 - 1)).sum < d) := by
            simp only [Nat.add_sub_cancel, List.take_succ_cons, List.sum_cons]
            push_neg
            have hb : 0 ≤ b := hrest b (List.mem_cons_self b rest')
            have hsum' : 0 ≤ (rest'.take m).sum :=
              List.sum_nonneg fun x hx =>
                hrest x (List.mem_cons_of_mem b (List.mem_of_mem_take hx))
            linarith
          rw [if_neg hns]

/-- The Frost-tower projectile of the C2 scenario
(slow = 0.45, slow_duration = 1.8), about to hit its target. -/
def c2frost : ZTD.Projectile :=
  { position := (0, 0), target := some 0, speed := 320, damage := 12,
    splash_radius := 0, slow := 9/20, slow_duration := 9/5, alive := true }

/-- A fresh walker on a straight path, hit by the Frost projectile. -/
def c2after : List ZTD.Zombie :=
  ZTD.handleOne 0 [ZTD.mkZombie [(0, 0), (1000, 0)] ZTD.ZKind.walker] c2frost 1

/-- C2 counterexample: a slow with factor 0.45 leaves the zombie with
speed multiplier 0.55 = 1 - 0.45, not 0.45, and the next one-second
update moves it 45·0.55 = 24.75 px, not 45·0.45. -/
theorem c2_counterexample :
    (c2after.map ZTD.Zombie.slowFactor = [11/20] ∧ (11/20 : ℚ) ≠ 9/20) ∧
    ((ZTD.zombieUpdate 1000 c2after.headI 1).1.position.1 = 99/4 ∧
      (99/4 : ℚ) ≠ 45 * (9/20) * 1) := by
  have hc : c2after = [{ ZTD.mkZombie [(0, 0), (1000, 0)] ZTD.ZKind.walker with
      health := 78, slowFactor := 11/20, slowTimer := 9/5 }] := by
    norm_num [c2after, c2frost, ZTD.handleOne, ZTD.projUpdate, ZTD.resolveProj,
      ZTD.targetZombie, ZTD.mkZombie, ZTD.zombieStats, ZTD.hitZombie]
  refine ⟨⟨by rw [hc]; rfl, by norm_num⟩, ⟨?_, by norm_num⟩⟩
  rw [hc]
  norm_num [ZTD.zombieUpdate, ZTD.slowStep, ZTD.mkZombie, ZTD.zombieStats,
    vadd, vsub, smul, List.headI]

/-- C2 (amended): a projectile hit with slow amount `f > 0` whose target
survives sets the target's speed multiplier to `1 - f` (overwriting any
previous slow state, never stacking) and resets the expiry timer to the
slow duration `d`; every `Zombie.update` applies exactly the `slowStep`
bookkeeping to these two fields; starting from `(d, 1 - f)` the
multiplier stays `1 - f` for every frame beginning before time `d` and
is reset to 1 from the first frame beginning at or after `d`; and a
non-snapping update moves the zombie by exactly
`speed * multiplier * dt`. -/
theorem c2_slow_overwrite :
    (∀ (zs : List ZTD.Zombie) (p : ZTD.Projectile) (t : ℕ) (tz : ZTD.Zombie),
      p.alive = false → p.target = some t → zs[t]? = some tz → 0 < tz.health →
      p.splash_radius = 0 → 0 < p.slow → 0 < tz.health - p.damage →
      (ZTD.resolveProj zs p)[t]? =
        some { tz with health := tz.health - p.damage,
                       slowFactor := 1 - p.slow, slowTimer := p.slow_duration }) ∧
    (∀ (dist : ℚ) (z : ZTD.Zombie) (dt : ℚ),
      ((ZTD.zombieUpdate dist z dt).1.slowTimer,
       (ZTD.zombieUpdate dist z dt).1.slowFactor) =
        ZTD.slowStep z.slowTimer z.slowFactor dt) ∧
    (∀ (dts : List ℚ) (d f : ℚ), 0 < d → (∀ x ∈ dts, 0 ≤ x) → ∀ k, k ≤ dts.length →
      (ZTD.slowIter (dts.take k) (d, f)).2 =
        if (dts.take (k - 1)).sum < d then f else 1) ∧
    (∀ (dist : ℚ) (z : ZTD.Zombie) (dt : ℚ), 0 < dist →
      dist ^ 2 = normSq (vsub (z.path.getD (z.pathIndex + 1) (0, 0)) z.position) →
      z.pathIndex + 1 < z.path.length →
      z.speed * (ZTD.slowStep z.slowTimer z.slowFactor dt).2 * dt < dist →
      distSq (ZTD.zombieUpdate dist z dt).1.position z.position =
        (z.speed * (ZTD.slowStep z.slowTimer z.slowFactor dt).2 * dt) ^ 2) := by
  refine ⟨?_, ?_, ?_, ?_⟩
  · intro zs p t tz halive ht htz hh hsp hslow hsurv
    have hlt : t < zs.length := by
      by_contra hge
      rw [List.getElem?_eq_none (le_of_not_lt hge)] at htz
      exact Option.noConfusion htz
    have hcond : 0 < p.slow ∧ 0 < (ZTD.hitZombie p.damage tz).health := ⟨hslow, hsurv⟩
    unfold ZTD.resolveProj
    rw [halive]
    simp only [Bool.false_eq_true, if_false, ht, htz, if_pos hh, hsp]
    rw [if_neg (lt_irrefl (0 : ℚ))]
    rw [List.getElem?_set_eq_of_lt _ hlt]
    simp only [if_pos hcond]
    rw [List.getElem?_set_eq_of_lt _ (by simpa using hlt)]
    rfl
  · intro dist z dt
    simp only [ZTD.zombieUpdate]
    by_cases h1 : z.path.length ≤ z.pathIndex + 1
    · rw [if_pos h1]
    · rw [if_neg h1]
      by_cases h2 : dist = 0
      · rw [if_pos h2]
      · rw [if_neg h2]
        by_cases h3 : dist ≤ z.speed * (ZTD.slowStep z.slowTimer z.slowFactor dt).2 * dt
        · rw [if_pos h3]
        · rw [if_neg h3]
  · intro dts d f hd hnn k hk
    exact slowIter_factor dts d f hd hnn k hk
  · intro dist z dt h0 hsq hlen hmv
    have hne : dist ≠ 0 := ne_of_gt h0
    simp only [ZTD.zombieUpdate]
    rw [if_neg (not_le.mpr hlen), if_neg hne, if_neg (not_le.mpr hmv)]
    generalize z.path.getD (z.pathIndex + 1) (0, 0) = w at hsq ⊢
    simp only [distSq, normSq, vsub, vadd, smul] at hsq ⊢
    field_simp
    linear_combination (-(z.speed * (ZTD.slowStep z.slowTimer z.slowFactor dt).2 * dt) ^ 2) * hsq

/-- A walker that is already slowed, to exercise the overwrite. -/
def c2zprior : ZTD.Zombie :=
  { ZTD.mkZombie [(0, 0), (1000, 0)] ZTD.ZKind.walker with
      slowTimer := 1/2, slowFactor := 3/10 }

/-- The Frost projectile at resolution time. -/
def c2pdead : ZTD.Projectile := { c2frost with alive := false }

/-- A walker carrying the freshly applied Frost slow state. -/
def c2zslow : ZTD.Zombie :=
  { ZTD.mkZombie [(0, 0), (1000, 0)] ZTD.ZKind.walker with
      slowTimer := 9/5, slowFactor := 11/20 }

/-- C2 witness: the amended slow semantics evaluated on the claim's
concrete scenario (f = 0.45, d = 1.8, one-second frames). -/
theorem c2_witness :
    (ZTD.resolveProj [c2zprior] c2pdead)[0]? =
      some { c2zprior with health := c2zprior.health - c2pdead.damage,
                           slowFactor := 1 - c2pdead.slow,
                           slowTimer := c2pdead.slow_duration } ∧
    ((ZTD.zombieUpdate 1000 c2zprior 1).1.slowTimer,
     (ZTD.zombieUpdate 1000 c2zprior 1).1.slowFactor) =
      ZTD.slowStep c2zprior.slowTimer c2zprior.slowFactor 1 ∧
    (ZTD.slowIter (([1, 1] : List ℚ).take 2) (9/5, 11/20)).2 =
      (if (([1, 1] : List ℚ).take (2 - 1)).sum < 9/5 then (11/20 : ℚ) else 1) ∧
    distSq (ZTD.zombieUpdate 1000 c2zslow 1).1.position c2zslow.position =
      (c2zslow.speed * (ZTD.slowStep c2zslow.slowTimer c2zslow.slowFactor 1).2 * 1) ^ 2 :=
  ⟨c2_slow_overwrite.1 [c2zprior] c2pdead 0 c2zprior rfl rfl rfl
      (by norm_num [c2zprior, ZTD.mkZombie, ZTD.zombieStats]) rfl
      (by norm_num [c2pdead, c2frost])
      (by norm_num [c2zprior, c2pdead, c2frost, ZTD.mkZombie, ZTD.zombieStats]),
   c2_slow_overwrite.2.1 1000 c2zprior 1,
   c2_slow_overwrite.2.2.1 [1, 1] (9/5) (11/20) (by norm_num)
      (by intro x hx; rcases List.mem_pair.mp hx with rfl | rfl <;> norm_num)
      2 (by norm_num),
   c2_slow_overwrite.2.2.2 1000 c2zslow 1 (by norm_num)
      (by norm_num [c2zslow, ZTD.mkZombie, ZTD.zombieStats, normSq, vsub])
      (by norm_num [c2zslow, ZTD.mkZombie, ZTD.zombieStats])
      (by norm_num [c2zslow, ZTD.mkZombie, ZTD.zombieStats, ZTD.slowStep])⟩

/-- C3: a projectile whose target reference is absent or whose target's
health is already ≤ 0 at the start of its update is marked expired, and
its whole handle_projectiles pass leaves every zombie untouched (no
damage, no splash, no slow, and nothing redirected); likewise a
zombie.py bullet whose target is dead is dropped with no effect. -/
theorem c3_dead_target_no_effect :
    (∀ (dist : ℚ) (zs : List ZTD.Zombie) (p : ZTD.Projectile) (dt : ℚ),
      (ZTD.targetZombie zs p = none ∨
        ∃ tz, ZTD.targetZombie zs p = some tz ∧ tz.health ≤ 0) →
      (ZTD.projUpdate dist zs p dt).alive = false ∧
        ZTD.handleOne dist zs p dt = zs) ∧
    (∀ (dist : ℚ) (zs : List ZPy.Zombie) (b : ZPy.Bullet) (tz : ZPy.Zombie),
      zs[b.target]? = some tz → tz.alive = false →
      ZPy.bulletUpdate dist zs b = (true, b, zs)) := by
  constructor
  · intro dist zs p dt h
    have halive : (ZTD.projUpdate dist zs p dt) = { p with alive := false } := by
      unfold ZTD.projUpdate
      rcases h with hnone | ⟨tz, hsome, hh⟩
      · rw [hnone]
      · simp only [hsome, if_pos hh]
    refine ⟨by rw [halive], ?_⟩
    unfold ZTD.handleOne
    rw [halive]
    show ZTD.resolveProj zs { p with alive := false } = zs
    unfold ZTD.resolveProj
    simp only [Bool.false_eq_true, if_false]
    cases hpt : p.target with
    | none => rfl
    | some t =>
      rcases h with hnone | ⟨tz, hsome, hh⟩
      · have hzt : zs[t]? = none := by
          unfold ZTD.targetZombie at hnone
          rw [hpt] at hnone
          simpa using hnone
        simp only [hzt]
      · have htz : zs[t]? = some tz := by
          unfold ZTD.targetZombie at hsome
          rw [hpt] at hsome
          simpa using hsome
        simp only [htz, if_neg (not_lt.mpr hh)]
  · intro dist zs b tz htz halive
    unfold ZPy.bulletUpdate
    simp [htz, halive]

/-- A zombie already at health ≤ 0 between tower fire and arrival. -/
def c3zs : List ZTD.Zombie :=
  [{ path := [], maxHealth := 90, health := -5, speed := 45, reward := 8,
     pathIndex := 0, position := (0, 0), slowTimer := 0, slowFactor := 1 }]

/-- A projectile still in flight toward the dead zombie. -/
def c3proj : ZTD.Projectile :=
  { position := (50, 0), target := some 0, speed := 320, damage := 15,
    splash_radius := 0, slow := 0, slow_duration := 0, alive := true }

/-- A dead zombie.py zombie. -/
def c3zsp : List ZPy.Zombie :=
  [{ pos := (0, 300), pathIndex := 1, health := 0, maxHealth := 50,
     speed := 1, alive := false, ztype := ZPy.PKind.normal }]

/-- A zombie.py bullet homing on the dead zombie. -/
def c3bullet : ZPy.Bullet :=
  { pos := (10, 10), target := 0, damage := 10, speed := 10, btype := ZPy.TKind.basic }

/-- C3 witness: both variants evaluated on a dead target. -/
theorem c3_witness :
    ((ZTD.projUpdate 50 c3zs c3proj (1/60)).alive = false ∧
      ZTD.handleOne 50 c3zs c3proj (1/60) = c3zs) ∧
    ZPy.bulletUpdate 20 c3zsp c3bullet = (true, c3bullet, c3zsp) :=
  ⟨c3_dead_target_no_effect.1 50 c3zs c3proj (1/60) (Or.inr ⟨_, rfl, by norm_num [c3zs]⟩),
   c3_dead_target_no_effect.2 20 c3zsp c3bullet _ rfl rfl⟩

/-- Helper: a candidate accepted by the targeting test is in range. -/
lemma betterHit_le (rng dsq : ℚ) (bq : Option ℚ)
    (h : ZTD.betterHit rng dsq bq = true) : dsq ≤ rng ^ 2 := by
  cases bq with
  | none => simpa [ZTD.betterHit] using h
  | some b =>
    simp only [ZTD.betterHit, Bool.and_eq_true, decide_eq_true_eq] at h
    exact h.1

/-- Helper: whatever the selection loop returns was either handed in as
the running best or is an in-range entry of the scanned list. -/
lemma scanBest_inRange (pos : Vec) (rng : ℚ) :
    ∀ (l : List (ℕ × ZTD.Zombie)) (best : Option ℕ) (bq : Option ℚ) (j : ℕ),
      ZTD.scanBest pos rng l best bq = some j →
      best = some j ∨ ∃ iz ∈ l, iz.1 = j ∧ distSq iz.2.position pos ≤ rng ^ 2 := by
  intro l
  induction l with
  | nil => intro best bq j h; exact Or.inl h
  | cons a rest ih =>
    intro best bq j h
    unfold ZTD.scanBest at h
    by_cases hb : ZTD.betterHit rng (distSq a.2.position pos) bq = true
    · rw [if_pos hb] at h
      rcases ih _ _ _ h with h1 | ⟨iz, hmem, hj, hd⟩
      · have ha : a.1 = j := Option.some_inj.mp h1
        exact Or.inr ⟨a, List.mem_cons_self a rest, ha, betterHit_le _ _ _ hb⟩
      · exact Or.inr ⟨iz, List.mem_cons_of_mem a hmem, hj, hd⟩
    · rw [if_neg hb] at h
      rcases ih _ _ _ h with h1 | ⟨iz, hmem, hj, hd⟩
      · exact Or.inl h1
      · exact Or.inr ⟨iz, List.mem_cons_of_mem a hmem, hj, hd⟩

/-- Helper: a selected target index points at an in-range zombie. -/
lemma bestTarget_inRange (pos : Vec) (rng : ℚ) (zs : List ZTD.Zombie) (j : ℕ)
    (h : ZTD.bestTarget pos rng zs = some j) :
    ∃ z ∈ zs, distSq z.position pos ≤ rng ^ 2 := by
  rcases scanBest_inRange pos rng zs.enum none none j h with h1 | ⟨iz, hmem, _, hd⟩
  · exact absurd h1 (by simp)
  · have hg : zs[iz.1]? = some iz.2 := List.mem_enum_iff_getElem?.mp hmem
    obtain ⟨hlt, he⟩ := List.getElem?_eq_some.mp hg
    exact ⟨iz.2, he ▸ List.getElem_mem hlt, hd⟩

/-- C4: a tower starts with cooldown 0; after every update the cooldown
is still nonnegative; a projectile is fired exactly when a target is in
range and the decremented-and-clamped cooldown has reached 0; firing
sets the cooldown to exactly `1 / fire_rate(level)`; and any selected
target is a zombie within the tower's range. -/
theorem c4_cooldown_contract (t : ZTD.Tower) (zs : List ZTD.Zombie) (dt : ℚ)
    (hr : 0 < t.ttype.fire_rate) :
    (ZTD.mkTower t.ttype t.position).cooldown = 0 ∧
    0 ≤ (ZTD.towerUpdate t zs dt).1.cooldown ∧
    ((ZTD.towerUpdate t zs dt).2.isSome = true ↔
      (ZTD.bestTarget t.position (ZTD.towerStats t).2.2 zs).isSome = true ∧
        max 0 (t.cooldown - dt) = 0) ∧
    ((ZTD.towerUpdate t zs dt).2.isSome = true →
      (ZTD.towerUpdate t zs dt).1.cooldown = ZTD.fireInterval t.ttype t.level) ∧
    ((ZTD.towerUpdate t zs dt).2.isSome = true →
      ∃ z ∈ zs, distSq z.position t.position ≤ (ZTD.towerStats t).2.2 ^ 2) := by
  have hrate : 0 < (ZTD.towerStats t).2.1 := by
    have hnn : (0 : ℚ) ≤ ((t.level - 1 : ℕ) : ℚ) * (1/5) := by positivity
    have : (ZTD.towerStats t).2.1 = t.ttype.fire_rate + ((t.level - 1 : ℕ) : ℚ) * (1/5) := rfl
    rw [this]
    linarith
  have hcnn : (0 : ℚ) ≤ max 0 (t.cooldown - dt) := le_max_left 0 _
  refine ⟨rfl, ?_, ?_, ?_, ?_⟩
  · cases hbt : ZTD.bestTarget t.position (ZTD.towerStats t).2.2 zs with
    | none =>
      simp only [ZTD.towerUpdate, hbt]
      exact hcnn
    | some i =>
      simp only [ZTD.towerUpdate, hbt]
      by_cases h0 : max 0 (t.cooldown - dt) ≤ 0
      · rw [if_pos h0]
        exact le_of_lt (by positivity)
      · rw [if_neg h0]
        exact hcnn
  · cases hbt : ZTD.bestTarget t.position (ZTD.towerStats t).2.2 zs with
    | none =>
      simp only [ZTD.towerUpdate, hbt]
      simp
    | some i =>
      simp only [ZTD.towerUpdate, hbt]
      by_cases h0 : max 0 (t.cooldown - dt) ≤ 0
      · rw [if_pos h0]
        simp only [Option.isSome_some, true_iff, true_and]
        exact le_antisymm h0 hcnn
      · rw [if_neg h0]
        simp only [Option.isSome_none, Bool.false_eq_true, false_iff, not_and,
          Option.isSome_some, forall_true_left]
        intro hmax
        exact absurd (le_of_eq hmax) h0
  · cases hbt : ZTD.bestTarget t.position (ZTD.towerStats t).2.2 zs with
    | none =>
      simp only [ZTD.towerUpdate, hbt]
      simp
    | some i =>
      simp only [ZTD.towerUpdate, hbt]
      by_cases h0 : max 0 (t.cooldown - dt) ≤ 0
      · rw [if_pos h0]
        intro _
        rfl
      · rw [if_neg h0]
        simp
  · cases hbt : ZTD.bestTarget t.position (ZTD.towerStats t).2.2 zs with
    | none =>
      simp only [ZTD.towerUpdate, hbt]
      simp
    | some i =>
      simp only [ZTD.towerUpdate, hbt]
      by_cases h0 : max 0 (t.cooldown - dt) ≤ 0
      · rw [if_pos h0]
        intro _
        exact bestTarget_inRange _ _ _ _ hbt
      · rw [if_neg h0]
        simp

/-- A level-1 Rifle tower at the origin, ready to fire. -/
def c4tower : ZTD.Tower := ZTD.mkTower ZTD.rifle (0, 0)

/-- One walker 100 px away — inside the Rifle's 160 range. -/
def c4zs : List ZTD.Zombie :=
  [{ path := [], maxHealth := 90, health := 90, speed := 45, reward := 8,
     pathIndex := 0, position := (100, 0), slowTimer := 0, slowFactor := 1 }]

/-- C4 witness: the cooldown contract evaluated for a ready Rifle tower
with one zombie in range, over a one-second frame. -/
theorem c4_witness :
    (ZTD.mkTower c4tower.ttype c4tower.position).cooldown = 0 ∧
    0 ≤ (ZTD.towerUpdate c4tower c4zs 1).1.cooldown ∧
    ((ZTD.towerUpdate c4tower c4zs 1).2.isSome = true ↔
      (ZTD.bestTarget c4tower.position (ZTD.towerStats c4tower).2.2 c4zs).isSome = true ∧
        max 0 (c4tower.cooldown - 1) = 0) ∧
    ((ZTD.towerUpdate c4tower c4zs 1).2.isSome = true →
      (ZTD.towerUpdate c4tower c4zs 1).1.cooldown =
        ZTD.fireInterval c4tower.ttype c4tower.level) ∧
    ((ZTD.towerUpdate c4tower c4zs 1).2.isSome = true →
      ∃ z ∈ c4zs, distSq z.position c4tower.position ≤ (ZTD.towerStats c4tower).2.2 ^ 2) :=
  c4_cooldown_contract c4tower c4zs 1 (by norm_num [c4tower, ZTD.mkTower, ZTD.rifle])

/-- Helper: the first nine naturals, the path-segment indices of
`Game.can_place`. -/
lemma range_nine : List.range (ZTD.gamePath.length - 1) = [0, 1, 2, 3, 4, 5, 6, 7, 8] := rfl

/-- Purse with exactly one Splash tower's cost, Splash card selected. -/
def c5g0 : ZTD.GState := { towers := [], coins := 160, selectedTower := some 2 }

/-- After one `main`-side placement click at (575, 75). -/
def c5g1 : ZTD.GState := ZTD.handleGameClickMain c5g0 (575, 75)

/-- After a second `main`-side placement click at (675, 75). -/
def c5g2 : ZTD.GState := ZTD.handleGameClickMain c5g1 (675, 75)

/-- Helper: the first `main`-side click places the Splash tower and
drains the purse to 0, leaving the card selected. -/
lemma c5_place1 :
    c5g1 = { towers := [ZTD.mkTower ZTD.splashTower (575, 75)],
             coins := 0, selectedTower := some 2 } := by
  have hs1 : ZTD.snap 575 = 575 := by decide
  have hs2 : ZTD.snap 75 = 75 := by decide
  have hcp : ZTD.canPlace [] (575, 75) = true := by
    unfold ZTD.canPlace
    rw [range_nine]
    norm_num [ZTD.inPlayArea, ZTD.gamePath, ZTD.segDistSq, ZTD.clampQ,
      distSq, normSq, vsub, vadd, smul, dotp, min_def, max_def]
  norm_num [c5g1, c5g0, ZTD.handleGameClickMain, ZTD.placeClickMain, hs1, hs2, hcp,
    ZTD.towerTypeAt, ZTD.TOWER_TYPES, ZTD.splashTower, ZTD.mkTower]

/-- Helper: the second `main`-side click places again with no funds
check, driving the purse to -160. -/
lemma c5_place2 :
    c5g2 = { towers := [ZTD.mkTower ZTD.splashTower (575, 75),
                        ZTD.mkTower ZTD.splashTower (675, 75)],
             coins := -160, selectedTower := some 2 } := by
  have hs1 : ZTD.snap 675 = 675 := by decide
  have hs2 : ZTD.snap 75 = 75 := by decide
  have hcp : ZTD.canPlace
      [{ ttype := { cost := 160, range := 170, fire_rate := 9 / 10, damage := 30,
                    splash_radius := 60, slow := 0, slow_duration := 0 },
         position := (575, 75), cooldown := 0, level := 1 }] (675, 75) = true := by
    unfold ZTD.canPlace
    rw [range_nine]
    norm_num [ZTD.inPlayArea, ZTD.gamePath, ZTD.segDistSq, ZTD.clampQ,
      distSq, normSq, vsub, vadd, smul, dotp, min_def, max_def]
  unfold c5g2
  rw [c5_place1]
  norm_num [ZTD.handleGameClickMain, ZTD.placeClickMain, hs1, hs2, hcp,
    ZTD.towerTypeAt, ZTD.TOWER_TYPES, ZTD.splashTower, ZTD.mkTower]

/-- C5 counterexample: through the `main` side of the conflicted
placement branch — which omits the funds re-check — two placement clicks
from a 160-coin purse (Splash card, cost 160, selected once) drive the
currency to -160 < 0. -/
theorem c5_counterexample : c5g2.coins = -160 ∧ c5g2.coins < 0 := by
  rw [c5_place2]
  norm_num

/-- Helper: a fold whose step never touches the purse leaves it alone. -/
lemma foldl_coins_invariant (f : ZTD.GState → ℕ → ZTD.GState)
    (hf : ∀ g a, (f g a).coins = g.coins) :
    ∀ (l : List ℕ) (g : ZTD.GState), (l.foldl f g).coins = g.coins := by
  intro l
  induction l with
  | nil => intro g; rfl
  | cons a rest ih =>
    intro g
    rw [List.foldl_cons, ih, hf]

/-- Helper: tower-card selection in the UI strip never moves coins. -/
lemma panelSelect_coins (g : ZTD.GState) (pos : ℤ × ℤ) :
    (ZTD.panelSelect g pos).coins = g.coins := by
  unfold ZTD.panelSelect
  exact foldl_coins_invariant _ (fun g' a => by dsimp only; split <;> rfl) _ g

/-- Helper: selecting an existing tower never moves coins. -/
lemma selectExisting_coins (g : ZTD.GState) (pos : ℤ × ℤ) :
    (ZTD.selectExisting g pos).coins = g.coins := by
  simp only [ZTD.selectExisting]
  split <;> rfl

/-- Helper: the HEAD-side placement branch keeps the purse nonnegative. -/
lemma placeClickHead_coins (g : ZTD.GState) (i : ℕ) (pos : ℤ × ℤ) (hc : 0 ≤ g.coins) :
    0 ≤ (ZTD.placeClickHead g i pos).coins := by
  simp only [ZTD.placeClickHead]
  split
  · split
    · rename_i hcost
      show 0 ≤ g.coins - (ZTD.towerTypeAt i).cost
      omega
    · exact hc
  · exact hc

/-- C5 (amended): in zombie.py and through the HEAD side of the
conflicted placement branch of zombie_tower_defense.py — the side that
re-checks the purse at placement time — a nonnegative purse stays
nonnegative across every click and upgrade, and a rejected placement or
upgrade (illegal spot, or funds short) returns the state entirely
unchanged; the `main` conflict side, which skips the re-check, breaks
this (see the counterexample). -/
theorem c5_currency_nonnegative :
    (∀ (g : ZTD.GState) (pos : ℤ × ℤ), 0 ≤ g.coins →
      0 ≤ (ZTD.handleGameClickHead g pos).coins) ∧
    (∀ g : ZTD.GState, 0 ≤ g.coins → 0 ≤ (ZTD.handleKeyU g).coins) ∧
    (∀ (g : ZTD.GState) (pos : ℤ × ℤ) (i : ℕ), g.selectedTower = some i →
      pos.2 ≤ 620 →
      (ZTD.canPlace g.towers ((ZTD.snap pos.1 : ℚ), (ZTD.snap pos.2 : ℚ)) = false ∨
        g.coins < (ZTD.towerTypeAt i).cost) →
      ZTD.handleGameClickHead g pos = g) ∧
    (∀ (g : ZTD.GState) (i : ℕ) (tw : ZTD.Tower), g.selectedTower = some i →
      g.towers[i]? = some tw → g.coins < ZTD.upgradeCost tw →
      ZTD.handleKeyU g = g) ∧
    (∀ (g : ZPy.PState) (pos : ℤ × ℤ), 0 ≤ g.coins → 0 ≤ (ZPy.zpPlace g pos).coins) ∧
    (∀ (g : ZPy.PState) (i : ℕ), 0 ≤ g.coins → 0 ≤ (ZPy.zpUpgrade g i).coins) ∧
    (∀ (g : ZPy.PState) (k : ZPy.TKind) (pos : ℤ × ℤ), g.selected = some k →
      g.coins < ZPy.towerCost k → ZPy.zpPlace g pos = g) := by
  refine ⟨?_, ?_, ?_, ?_, ?_, ?_, ?_⟩
  · intro g pos hc
    unfold ZTD.handleGameClickHead
    split
    · rw [panelSelect_coins]
      exact hc
    · cases hsel : g.selectedTower with
      | none =>
        show 0 ≤ (ZTD.selectExisting g pos).coins
        rw [selectExisting_coins]
        exact hc
      | some i =>
        show 0 ≤ (ZTD.placeClickHead g i pos).coins
        exact placeClickHead_coins g i pos hc
  · intro g hc
    obtain ⟨tws, cs, sel⟩ := g
    have hc' : (0 : ℤ) ≤ cs := hc
    cases sel with
    | none => exact hc'
    | some i =>
      simp only [ZTD.handleKeyU]
      cases h : tws[i]? with
      | none =>
        simp only [h]
        exact hc'
      | some tw =>
        simp only [h]
        split
        · show (0 : ℤ) ≤ cs - ZTD.upgradeCost tw
          omega
        · exact hc'
  · intro g pos i hsel hpos hrej
    unfold ZTD.handleGameClickHead
    rw [if_neg (not_lt.mpr hpos), hsel]
    show ZTD.placeClickHead g i pos = g
    simp only [ZTD.placeClickHead]
    rcases hrej with hcp | hcost
    · rw [if_neg (by simp [hcp])]
    · split
      · rw [if_neg (not_le.mpr hcost)]
      · rfl
  · intro g i tw hsel htw hcost
    obtain ⟨tws, cs, sel⟩ := g
    have hsel' : sel = some i := hsel
    subst hsel'
    have htw' : tws[i]? = some tw := htw
    have hcost' : cs < ZTD.upgradeCost tw := hcost
    unfold ZTD.handleKeyU
    simp only [htw']
    rw [if_neg (not_le.mpr hcost')]
  · intro g pos hc
    obtain ⟨tws, cs, sel⟩ := g
    have hc' : (0 : ℤ) ≤ cs := hc
    cases sel with
    | none => exact hc
    | some k =>
      simp only [ZPy.zpPlace]
      split
      · split
        · split
          · exact hc'
          · show (0 : ℤ) ≤ cs - ZPy.towerCost k
            omega
        · exact hc'
      · exact hc'
  · intro g i hc
    obtain ⟨tws, cs, sel⟩ := g
    have hc' : (0 : ℤ) ≤ cs := hc
    simp only [ZPy.zpUpgrade]
    cases h : tws[i]? with
    | none =>
      simp only [h]
      exact hc'
    | some tw =>
      simp only [h]
      split
      · show (0 : ℤ) ≤ cs - tw.upgrade_cost
        omega
      · exact hc'
  · intro g k pos hsel hcost
    obtain ⟨tws, cs, sel⟩ := g
    have hsel' : sel = some k := hsel
    subst hsel'
    have hcost' : cs < ZPy.towerCost k := hcost
    simp only [ZPy.zpPlace]
    split
    · rw [if_neg (not_le.mpr hcost')]
    · rfl

/-- An empty board whose purse cannot afford the selected Splash card. -/
def c5gPoor : ZTD.GState := { towers := [], coins := 0, selectedTower := some 2 }

/-- A board with one Rifle tower selected and an empty purse. -/
def c5gUp : ZTD.GState :=
  { towers := [ZTD.mkTower ZTD.rifle (575, 75)], coins := 0, selectedTower := some 0 }

/-- A zombie.py state that can afford a basic tower. -/
def c5zg : ZPy.PState := { towers := [], coins := 200, selected := some ZPy.TKind.basic }

/-- A zombie.py state that cannot afford the selected basic tower. -/
def c5zg0 : ZPy.PState := { towers := [], coins := 0, selected := some ZPy.TKind.basic }

/-- C5 witness: the guarded spending paths evaluated at concrete states. -/
theorem c5_witness :
    0 ≤ (ZTD.handleGameClickHead c5g0 (575, 75)).coins ∧
    0 ≤ (ZTD.handleKeyU c5g0).coins ∧
    ZTD.handleGameClickHead c5gPoor (575, 75) = c5gPoor ∧
    ZTD.handleKeyU c5gUp = c5gUp ∧
    0 ≤ (ZPy.zpPlace c5zg (400, 300)).coins ∧
    0 ≤ (ZPy.zpUpgrade c5zg 0).coins ∧
    ZPy.zpPlace c5zg0 (400, 300) = c5zg0 :=
  ⟨c5_currency_nonnegative.1 c5g0 (575, 75) (by norm_num [c5g0]),
   c5_currency_nonnegative.2.1 c5g0 (by norm_num [c5g0]),
   c5_currency_nonnegative.2.2.1 c5gPoor (575, 75) 2 rfl (by norm_num)
     (Or.inr (by norm_num [c5gPoor, ZTD.towerTypeAt, ZTD.TOWER_TYPES, ZTD.splashTower])),
   c5_currency_nonnegative.2.2.2.1 c5gUp 0 (ZTD.mkTower ZTD.rifle (575, 75)) rfl rfl
     (by norm_num [c5gUp, ZTD.upgradeCost, ZTD.upgradeCostOf, ZTD.mkTower, ZTD.rifle]),
   c5_currency_nonnegative.2.2.2.2.1 c5zg (400, 300) (by norm_num [c5zg]),
   c5_currency_nonnegative.2.2.2.2.2.1 c5zg 0 (by norm_num [c5zg]),
   c5_currency_nonnegative.2.2.2.2.2.2 c5zg0 ZPy.TKind.basic (400, 300) rfl
     (by norm_num [c5zg0, ZPy.towerCost, ZPy.mkTower])⟩

/-- The spec's placement-legality contract, stated directly: a proposed
position is illegal iff its 32×32 footprint leaves the play area, or it
is within the spacing distance 36 of an existing tower, or within the
clearance distance 40 of some path segment. -/
def specPlacementIllegal (towers : List ZTD.Tower) (pos : Vec) : Prop :=
  ¬ (0 ≤ pos.1 - 16 ∧ 0 ≤ pos.2 - 16 ∧ pos.1 + 16 ≤ 1100 ∧ pos.2 + 16 ≤ 620) ∨
  (∃ t ∈ towers, distSq t.position pos < 36 ^ 2) ∨
  (∃ i < ZTD.gamePath.length - 1,
    ZTD.segDistSq pos (ZTD.gamePath.getD i (0, 0)) (ZTD.gamePath.getD (i + 1) (0, 0)) < 40 ^ 2)

/-- Helper: the play-area check, read as a proposition. -/
lemma inPlayArea_false_iff (pos : Vec) :
    ZTD.inPlayArea pos = false ↔
      ¬ (0 ≤ pos.1 - 16 ∧ 0 ≤ pos.2 - 16 ∧ pos.1 + 16 ≤ 1100 ∧ pos.2 + 16 ≤ 620) := by
  rw [Bool.eq_false_iff, ne_eq]
  unfold ZTD.inPlayArea
  simp [and_assoc]

/-- Helper: the tower-spacing check, read as a proposition. -/
lemma towersAll_false_iff (towers : List ZTD.Tower) (pos : Vec) :
    (towers.all fun t => !decide (distSq t.position pos < 36 ^ 2)) = false ↔
      ∃ t ∈ towers, distSq t.position pos < 36 ^ 2 := by
  rw [Bool.eq_false_iff, ne_eq, List.all_eq_true]
  simp

/-- Helper: the path-clearance check, read as a proposition. -/
lemma pathAll_false_iff (pos : Vec) :
    ((List.range (ZTD.gamePath.length - 1)).all fun i =>
      !decide (ZTD.segDistSq pos (ZTD.gamePath.getD i (0, 0))
        (ZTD.gamePath.getD (i + 1) (0, 0)) < 40 ^ 2)) = false ↔
      ∃ i < ZTD.gamePath.length - 1,
        ZTD.segDistSq pos (ZTD.gamePath.getD i (0, 0))
          (ZTD.gamePath.getD (i + 1) (0, 0)) < 40 ^ 2 := by
  rw [Bool.eq_false_iff, ne_eq, List.all_eq_true]
  simp

/-- C6 (amended): `Game.can_place` of zombie_tower_defense.py rejects a
position exactly when the spec's three placement constraints say so; the
zombie.py prototype checks only proximity to the path's waypoints — not
to segment bodies — and has no tower-spacing or play-area constraint, so
it can accept a position lying directly on a path segment (see the
counterexample). -/
theorem c6_can_place_iff (towers : List ZTD.Tower) (pos : Vec) :
    ZTD.canPlace towers pos = false ↔ specPlacementIllegal towers pos := by
  unfold ZTD.canPlace specPlacementIllegal
  rw [Bool.and_eq_false_iff, Bool.and_eq_false_iff,
    inPlayArea_false_iff, towersAll_false_iff, pathAll_false_iff, or_assoc]

/-- An affluent zombie.py state with the basic tower card selected. -/
def c6zg : ZPy.PState := { towers := [], coins := 200, selected := some ZPy.TKind.basic }

/-- Helper: the 15 segment indices of the zombie.py path. -/
lemma range_fifteen :
    List.range (ZPy.PATH.length - 1) = [0, 1, 2, 3, 4, 5, 6, 7, 8, 9, 10, 11, 12, 13, 14] := rfl

/-- C6 counterexample: the point (50, 300) lies directly on the first
path segment of zombie.py (segment distance 0, inside any positive
clearance), yet the placement check accepts it and a tower is placed
there — the claim's "no position violating the constraints is ever
accepted" fails on the zombie.py prototype. -/
theorem c6_counterexample :
    ZTD.segDistSq (50, 300) (0, 300) (100, 300) = 0 ∧
    ZPy.onPathCheck (50, 300) = false ∧
    (ZPy.zpPlace c6zg (50, 300)).towers.length = 1 := by
  refine ⟨?_, ?_, ?_⟩
  · norm_num [ZTD.segDistSq, ZTD.clampQ, distSq, normSq, vsub, vadd, smul, dotp,
      min_def, max_def]
  · unfold ZPy.onPathCheck
    rw [range_fifteen]
    norm_num [ZPy.PATH, distSq, normSq, vsub]
  · have hop : ZPy.onPathCheck (50, 300) = false := by
      unfold ZPy.onPathCheck
      rw [range_fifteen]
      norm_num [ZPy.PATH, distSq, normSq, vsub]
    norm_num [c6zg, ZPy.zpPlace, ZPy.towerCost, ZPy.mkTower, hop]

/-- C7 counterexample: zombie_tower_defense.py has no floor on the fire
interval.  Concretely the Rifle interval at level 100 is already below
0.1 s, and no fixed positive floor bounds `1 / fire_rate(level)` over
all levels — for any candidate floor some level undercuts it. -/
theorem c7_counterexample :
    ZTD.fireInterval ZTD.rifle 100 < 1/10 ∧
    ¬ ∃ f : ℚ, 0 < f ∧ ∀ l : ℕ, 1 ≤ l → f ≤ ZTD.fireInterval ZTD.rifle l := by
  constructor
  · norm_num [ZTD.fireInterval, ZTD.statsOf, ZTD.rifle]
  · rintro ⟨f, hf, hall⟩
    obtain ⟨n, hn⟩ := exists_nat_gt (5 / f)
    have hspec := hall (n + 1) (by omega)
    have hival : ZTD.fireInterval ZTD.rifle (n + 1) = 1 / (3/2 + (n : ℚ) * (1/5)) := by
      unfold ZTD.fireInterval ZTD.statsOf ZTD.rifle
      norm_num
    rw [hival] at hspec
    have hrat : 1 / f < 3/2 + (n : ℚ) * (1/5) := by
      have h5 : 5 / f < (n : ℚ) := hn
      have hinv : 1 / f = (5 / f) * (1/5) := by
        field_simp
      rw [hinv]
      have : (5 / f) * (1/5) < (n : ℚ) * (1/5) := by
        have h15 : (0:ℚ) < 1/5 := by norm_num
        exact mul_lt_mul_of_pos_right h5 h15
      linarith
    have hpos : (0 : ℚ) < 1 / f := by positivity
    have hlt : 1 / (3/2 + (n : ℚ) * (1/5)) < 1 / (1 / f) :=
      one_div_lt_one_div_of_lt hpos hrat
    rw [one_div_one_div] at hlt
    linarith

/-- C7 (amended): derived damage, fire rate and range grow strictly with
level, and the next-upgrade cost grows strictly with level, in both
prototypes; in zombie.py the inter-shot interval is floored at 10 frames
no matter how many upgrades are applied, and each upgrade never raises
it; in zombie_tower_defense.py the fire interval stays positive but has
no fixed positive floor (see the counterexample). -/
theorem c7_upgrade_monotonicity :
    (∀ (tt : ZTD.TowerType) (l1 l2 : ℕ), 1 ≤ l1 → l1 < l2 →
      (ZTD.statsOf tt l1).1 < (ZTD.statsOf tt l2).1 ∧
      (ZTD.statsOf tt l1).2.1 < (ZTD.statsOf tt l2).2.1 ∧
      (ZTD.statsOf tt l1).2.2 < (ZTD.statsOf tt l2).2.2) ∧
    (∀ (tt : ZTD.TowerType) (l1 l2 : ℕ), 2 ≤ tt.cost → l1 < l2 →
      ZTD.upgradeCostOf tt l1 < ZTD.upgradeCostOf tt l2) ∧
    (∀ (tt : ZTD.TowerType) (l : ℕ), 0 < tt.fire_rate → 0 < ZTD.fireInterval tt l) ∧
    (∀ (t : ZPy.Tower) (n : ℕ), 10 ≤ t.fire_rate → 10 ≤ (ZPy.upgradeT^[n] t).fire_rate) ∧
    (∀ (t : ZPy.Tower) (n : ℕ),
      (ZPy.upgradeT^[n] t).damage = t.damage + 10 * n ∧
      (ZPy.upgradeT^[n] t).range = t.range + 20 * n ∧
      (ZPy.upgradeT^[n] t).upgrade_cost = t.upgrade_cost + 50 * n) ∧
    (∀ t : ZPy.Tower, 10 ≤ t.fire_rate → (ZPy.upgradeT t).fire_rate ≤ t.fire_rate) := by
  refine ⟨?_, ?_, ?_, ?_, ?_, ?_⟩
  · intro tt l1 l2 h1 h12
    have hcast : ((l1 - 1 : ℕ) : ℚ) < ((l2 - 1 : ℕ) : ℚ) := by
      exact_mod_cast (by omega : l1 - 1 < l2 - 1)
    unfold ZTD.statsOf
    refine ⟨?_, ?_, ?_⟩ <;> dsimp only <;> linarith
  · intro tt l1 l2 hc h12
    unfold ZTD.upgradeCostOf
    have hcast : ((l1 : ℚ) + 1) ≤ (l2 : ℚ) := by
      exact_mod_cast (by omega : l1 + 1 ≤ l2)
    have hc2 : (2 : ℚ) ≤ (tt.cost : ℚ) := by exact_mod_cast hc
    have hstep : (tt.cost : ℚ) * (3/4 + (1/2) * (l1 : ℚ)) + 1 ≤
        (tt.cost : ℚ) * (3/4 + (1/2) * (l2 : ℚ)) := by
      nlinarith
    calc ⌊(tt.cost : ℚ) * (3/4 + (1/2) * (l1 : ℚ))⌋
        < ⌊(tt.cost : ℚ) * (3/4 + (1/2) * (l1 : ℚ))⌋ + 1 := by omega
      _ = ⌊(tt.cost : ℚ) * (3/4 + (1/2) * (l1 : ℚ)) + 1⌋ := (Int.floor_add_one _).symm
      _ ≤ ⌊(tt.cost : ℚ) * (3/4 + (1/2) * (l2 : ℚ))⌋ := Int.floor_le_floor hstep
  · intro tt l hr
    unfold ZTD.fireInterval ZTD.statsOf
    have hnn : (0 : ℚ) ≤ ((l - 1 : ℕ) : ℚ) * (1/5) := by positivity
    dsimp only
    positivity
  · intro t n hfr
    induction n with
    | zero => exact hfr
    | succ m ih =>
      rw [Function.iterate_succ_apply']
      exact le_max_left 10 _
  · intro t n
    induction n with
    | zero => refine ⟨?_, ?_, ?_⟩ <;> simp
    | succ m ih =>
      rw [Function.iterate_succ_apply']
      refine ⟨?_, ?_, ?_⟩ <;>
        simp only [ZPy.upgradeT, ih.1, ih.2.1, ih.2.2] <;> push_cast <;> ring
  · intro t hfr
    have h1 : t.fire_rate - 10 ≤ t.fire_rate := by omega
    have h2 : (10 : ℤ) ≤ t.fire_rate := hfr
    exact max_le h2 h1

/-- C7 witness: monotonicity and the zombie.py floor evaluated at
concrete towers and levels. -/
theorem c7_witness :
    ((ZTD.statsOf ZTD.frost 1).1 < (ZTD.statsOf ZTD.frost 2).1 ∧
     (ZTD.statsOf ZTD.frost 1).2.1 < (ZTD.statsOf ZTD.frost 2).2.1 ∧
     (ZTD.statsOf ZTD.frost 1).2.2 < (ZTD.statsOf ZTD.frost 2).2.2) ∧
    ZTD.upgradeCostOf ZTD.rifle 1 < ZTD.upgradeCostOf ZTD.rifle 2 ∧
    0 < ZTD.fireInterval ZTD.rifle 3 ∧
    10 ≤ (ZPy.upgradeT^[7] (ZPy.mkTower ZPy.TKind.basic)).fire_rate ∧
    ((ZPy.upgradeT^[3] (ZPy.mkTower ZPy.TKind.basic)).damage =
        (ZPy.mkTower ZPy.TKind.basic).damage + 10 * 3 ∧
     (ZPy.upgradeT^[3] (ZPy.mkTower ZPy.TKind.basic)).range =
        (ZPy.mkTower ZPy.TKind.basic).range + 20 * 3 ∧
     (ZPy.upgradeT^[3] (ZPy.mkTower ZPy.TKind.basic)).upgrade_cost =
        (ZPy.mkTower ZPy.TKind.basic).upgrade_cost + 50 * 3) ∧
    (ZPy.upgradeT (ZPy.mkTower ZPy.TKind.basic)).fire_rate ≤
      (ZPy.mkTower ZPy.TKind.basic).fire_rate :=
  ⟨c7_upgrade_monotonicity.1 ZTD.frost 1 2 (by norm_num) (by norm_num),
   c7_upgrade_monotonicity.2.1 ZTD.rifle 1 2 (by norm_num [ZTD.rifle]) (by norm_num),
   c7_upgrade_monotonicity.2.2.1 ZTD.rifle 3 (by norm_num [ZTD.rifle]),
   c7_upgrade_monotonicity.2.2.2.1 (ZPy.mkTower ZPy.TKind.basic) 7 (by norm_num [ZPy.mkTower]),
   c7_upgrade_monotonicity.2.2.2.2.1 (ZPy.mkTower ZPy.TKind.basic) 3,
   c7_upgrade_monotonicity.2.2.2.2.2 (ZPy.mkTower ZPy.TKind.basic)
     (by norm_num [ZPy.mkTower])⟩

/-- Helper: a zombie escapes this frame iff its path index has already
run off the end of PATH — independent of the step geometry. -/
lemma zUpdate_snd (dist : ℚ) (z : ZPy.Zombie) :
    (ZPy.zUpdate dist z).2 = !decide (z.pathIndex < ZPy.PATH.length) := by
  unfold ZPy.zUpdate
  split
  · rename_i h
    split <;> simp [h]
  · rename_i h
    simp [h]

/-- Helper: the escape penalty of a cons. -/
lemma escPenalty_cons (z : ZPy.Zombie) (l : List ZPy.Zombie) :
    ZPy.escPenalty (z :: l) =
      (if z.alive && !decide (z.pathIndex < ZPy.PATH.length) then ZPy.penalty z else 0) +
        ZPy.escPenalty l := by
  unfold ZPy.escPenalty
  rw [List.filter_cons]
  split
  · simp
  · simp

/-- Helper: escape penalties are nonnegative. -/
lemma escPenalty_nonneg (l : List ZPy.Zombie) : 0 ≤ ZPy.escPenalty l := by
  unfold ZPy.escPenalty
  apply List.sum_nonneg
  intro x hx
  simp only [List.mem_map] at hx
  obtain ⟨z, _, rfl⟩ := hx
  unfold ZPy.penalty
  split <;> norm_num

/-- Helper: each escape costs a positive number of lives. -/
lemma penalty_pos (z : ZPy.Zombie) : 0 < ZPy.penalty z := by
  unfold ZPy.penalty
  split <;> norm_num

/-- Helper: with positive lives on entry, the zombie loop exits through
the loss branch iff the lives do not cover the total escape penalty of
the remaining zombies; it never exits through the win branch; and a loss
carries the store updated by `save_high_score` at the loss-time score. -/
lemma zombieLoop_spec (dists : ℕ → ℚ) (drops dkinds : ℕ → Bool) (gs : ZPy.GS) :
    ∀ (rest : List ZPy.Zombie) (i : ℕ) (kept : List ZPy.Zombie)
      (lives coins score : ℤ) (pus : List (Vec × Bool)), 0 < lives →
      ((∃ s st, ZPy.zombieLoop dists drops dkinds gs i rest kept lives coins score pus =
          ZPy.Outcome.lost s st) ↔ lives ≤ ZPy.escPenalty rest) ∧
      (∀ s st, ZPy.zombieLoop dists drops dkinds gs i rest kept lives coins score pus ≠
          ZPy.Outcome.won s st) ∧
      (∀ s st, ZPy.zombieLoop dists drops dkinds gs i rest kept lives coins score pus =
          ZPy.Outcome.lost s st → st = ZPy.saveHS s gs.store) := by
  intro rest
  induction rest with
  | nil =>
    intro i kept lives coins score pus hl
    have hpen : ZPy.escPenalty [] = 0 := rfl
    refine ⟨?_, ?_, ?_⟩
    · simp only [ZPy.zombieLoop]
      constructor
      · rintro ⟨s, st, h⟩
        exact ZPy.Outcome.noConfusion h
      · intro h
        rw [hpen] at h
        omega
    · intro s st h
      simp only [ZPy.zombieLoop] at h
      exact ZPy.Outcome.noConfusion h
    · intro s st h
      simp only [ZPy.zombieLoop] at h
      exact ZPy.Outcome.noConfusion h
  | cons z rest ih =>
    intro i kept lives coins score pus hl
    by_cases halive : z.alive = false
    · have hstep : ZPy.zombieLoop dists drops dkinds gs i (z :: rest) kept lives coins score pus =
          ZPy.zombieLoop dists drops dkinds gs (i + 1) rest kept lives (coins + 20) (score + 10)
            (if drops i then pus ++ [(z.pos, dkinds i)] else pus) := by
        simp only [ZPy.zombieLoop, if_pos halive]
      have hpen : ZPy.escPenalty (z :: rest) = ZPy.escPenalty rest := by
        rw [escPenalty_cons, halive]
        simp
      rw [hstep, hpen]
      exact ih (i + 1) kept lives (coins + 20) (score + 10) _ hl
    · have halive' : z.alive = true := by
        cases h : z.alive
        · exact absurd h halive
        · rfl
      by_cases hp : z.pathIndex < ZPy.PATH.length
      · have hstep : ZPy.zombieLoop dists drops dkinds gs i (z :: rest) kept lives coins score pus =
            ZPy.zombieLoop dists drops dkinds gs (i + 1) rest
              ((ZPy.zUpdate (dists i) z).1 :: kept) lives coins score pus := by
          simp only [ZPy.zombieLoop, if_neg halive, zUpdate_snd, hp]
          simp
        have hpen : ZPy.escPenalty (z :: rest) = ZPy.escPenalty rest := by
          rw [escPenalty_cons]
          simp [hp]
        rw [hstep, hpen]
        exact ih (i + 1) _ lives coins score pus hl
      · have hesc : (ZPy.zUpdate (dists i) z).2 = true := by
          rw [zUpdate_snd]
          simp [hp]
        have hpen : ZPy.escPenalty (z :: rest) = ZPy.penalty z + ZPy.escPenalty rest := by
          rw [escPenalty_cons, halive']
          simp [hp]
        by_cases hdead : lives - ZPy.penalty z ≤ 0
        · have hstep : ZPy.zombieLoop dists drops dkinds gs i (z :: rest) kept lives coins score pus =
              ZPy.Outcome.lost score (ZPy.saveHS score gs.store) := by
            simp only [ZPy.zombieLoop, if_neg halive, hesc]
            simp [hdead]
          rw [hstep, hpen]
          have hrest := escPenalty_nonneg rest
          refine ⟨⟨fun _ => by omega, fun _ => ⟨score, ZPy.saveHS score gs.store, rfl⟩⟩, ?_, ?_⟩
          · intro s st h
            exact ZPy.Outcome.noConfusion h
          · intro s st h
            obtain ⟨hs, hst⟩ := ZPy.Outcome.lost.inj h
            rw [← hs, ← hst]
        · have hstep : ZPy.zombieLoop dists drops dkinds gs i (z :: rest) kept lives coins score pus =
              ZPy.zombieLoop dists drops dkinds gs (i + 1) rest kept
                (lives - ZPy.penalty z) coins score pus := by
            simp only [ZPy.zombieLoop, if_neg halive, hesc]
            simp [hdead]
          rw [hstep, hpen]
          obtain ⟨hiff, hwon, hlost⟩ :=
            ih (i + 1) kept (lives - ZPy.penalty z) coins score pus (by omega)
          refine ⟨?_, hwon, hlost⟩
          rw [hiff]
          omega

/-- Helper: the spawn step only touches the timer, queue and field. -/
lemma spawnInner_fields (choice : ZPy.PKind) (gs : ZPy.GS) :
    (ZPy.spawnInner choice gs).lives = gs.lives ∧
    (ZPy.spawnInner choice gs).score = gs.score ∧
    (ZPy.spawnInner choice gs).wave = gs.wave ∧
    (ZPy.spawnInner choice gs).store = gs.store := by
  simp only [ZPy.spawnInner]
  split <;> exact ⟨rfl, rfl, rfl, rfl⟩

/-- The state `waveCheck` hands back when a wave completes without
ending the game (spawning off, wave counter bumped, bonus credited). -/
def ZPy.waveDone (gs1 : ZPy.GS) : ZPy.GS :=
  { gs1 with spawning := false, betweenWaves := true, wave := gs1.wave + 1,
             score := gs1.score + 100 * (gs1.wave : ℤ) }

/-- A state one frame from winning: wave 10's queue and field are both
empty while the wave is still marked as spawning. -/
def c8winGS : ZPy.GS :=
  { lives := 20, coins := 0, score := 0, wave := 10, spawning := true,
    betweenWaves := false, zombiesToSpawn := 0, spawnTimer := 0, spawnInterval := 60,
    zombies := [], powerUps := [], store := none }

/-- A zombie that has consumed the whole path and escapes this frame. -/
def c8escaper : ZPy.Zombie :=
  { pos := (800, 300), pathIndex := 16, health := 50, maxHealth := 50,
    speed := 1, alive := true, ztype := ZPy.PKind.normal }

/-- A state one frame from losing: one life, one escaping zombie. -/
def c8lossGS : ZPy.GS :=
  { lives := 1, coins := 0, score := 50, wave := 3, spawning := false,
    betweenWaves := true, zombiesToSpawn := 0, spawnTimer := 0, spawnInterval := 60,
    zombies := [c8escaper], powerUps := [], store := none }

/-- C8: in zombie.py's frame update, a win exit happens exactly when a
wave was spawning, its queue and the field are exhausted after the spawn
step, and the incremented wave counter exceeds MAX_WAVES; its score is
the current score plus the survival bonus and the high score is
persisted through `save_high_score`.  A loss exit happens exactly when
the (positive) lives do not cover this frame's total escape penalty, and
it also persists through `save_high_score`.  `save_high_score` stores
`max(score, stored)`. -/
theorem c8_termination (choice : ZPy.PKind) (dists : ℕ → ℚ) (drops dkinds : ℕ → Bool)
    (gs : ZPy.GS) (hl : 0 < gs.lives) :
    ((∃ s st, ZPy.updatePhase choice dists drops dkinds gs = ZPy.Outcome.won s st) ↔
      (gs.spawning = true ∧ (ZPy.spawnInner choice gs).zombiesToSpawn ≤ 0 ∧
        (ZPy.spawnInner choice gs).zombies = [] ∧ ZPy.MAX_WAVES < gs.wave + 1)) ∧
    (∀ s st, ZPy.updatePhase choice dists drops dkinds gs = ZPy.Outcome.won s st →
      s = gs.score + 100 * (gs.wave : ℤ) ∧ st = ZPy.saveHS s gs.store) ∧
    ((∃ s st, ZPy.updatePhase choice dists drops dkinds gs = ZPy.Outcome.lost s st) ↔
      gs.lives ≤ ZPy.escPenalty (ZPy.postSpawn choice gs).zombies) ∧
    (∀ s st, ZPy.updatePhase choice dists drops dkinds gs = ZPy.Outcome.lost s st →
      st = ZPy.saveHS s gs.store) ∧
    (∀ (sc : ℤ) (st : Option ℤ), ZPy.loadHS (ZPy.saveHS sc st) = max sc (ZPy.loadHS st)) ∧
    (∃ (gs' : ZPy.GS) (s : ℤ) (st : Option ℤ),
      ZPy.updatePhase choice dists drops dkinds gs' = ZPy.Outcome.won s st) ∧
    (∃ (gs' : ZPy.GS) (s : ℤ) (st : Option ℤ),
      ZPy.updatePhase choice dists drops dkinds gs' = ZPy.Outcome.lost s st) := by
  have hreach_won : ∃ (gs' : ZPy.GS) (s : ℤ) (st : Option ℤ),
      ZPy.updatePhase choice dists drops dkinds gs' = ZPy.Outcome.won s st :=
    ⟨c8winGS, 1000, some 1000, rfl⟩
  have hreach_lost : ∃ (gs' : ZPy.GS) (s : ℤ) (st : Option ℤ),
      ZPy.updatePhase choice dists drops dkinds gs' = ZPy.Outcome.lost s st :=
    ⟨c8lossGS, 50, some 50, rfl⟩
  obtain ⟨hf1, hf2, hf3, hf4⟩ := spawnInner_fields choice gs
  cases hsp : gs.spawning with
  | false =>
    have hrun : ZPy.updatePhase choice dists drops dkinds gs =
        ZPy.zombieLoop dists drops dkinds gs 0 gs.zombies [] gs.lives gs.coins gs.score [] := by
      unfold ZPy.updatePhase
      rw [hsp]
      simp only [Bool.false_eq_true, if_false]
    have hps : ZPy.postSpawn choice gs = gs := by
      unfold ZPy.postSpawn
      rw [hsp]
      simp only [Bool.false_eq_true, if_false]
    obtain ⟨hiff, hwon, hlost⟩ :=
      zombieLoop_spec dists drops dkinds gs gs.zombies 0 [] gs.lives gs.coins gs.score [] hl
    rw [hrun, hps]
    refine ⟨?_, ?_, hiff, hlost, zpy_load_save, hreach_won, hreach_lost⟩
    · constructor
      · rintro ⟨s, st, h⟩
        exact absurd h (hwon s st)
      · rintro ⟨hspawn, _⟩
        exact Bool.noConfusion hspawn
    · intro s st h
      exact absurd h (hwon s st)
  | true =>
    have hps : ZPy.postSpawn choice gs = ZPy.spawnInner choice gs := by
      unfold ZPy.postSpawn
      rw [hsp]
      simp
    rw [hps]
    by_cases hcomp : (ZPy.spawnInner choice gs).zombiesToSpawn ≤ 0 ∧
        (ZPy.spawnInner choice gs).zombies = []
    · by_cases hwave : ZPy.MAX_WAVES < (ZPy.spawnInner choice gs).wave + 1
      · have hrun : ZPy.updatePhase choice dists drops dkinds gs =
            ZPy.Outcome.won
              ((ZPy.spawnInner choice gs).score + 100 * ((ZPy.spawnInner choice gs).wave : ℤ))
              (ZPy.saveHS
                ((ZPy.spawnInner choice gs).score + 100 * ((ZPy.spawnInner choice gs).wave : ℤ))
                (ZPy.spawnInner choice gs).store) := by
          unfold ZPy.updatePhase ZPy.waveCheck
          rw [hsp, if_pos hcomp, if_pos hwave]
          simp
        rw [hrun]
        refine ⟨?_, ?_, ?_, ?_, zpy_load_save, hreach_won, hreach_lost⟩
        · constructor
          · intro _
            exact ⟨rfl, hcomp.1, hcomp.2, by rw [← hf3]; exact hwave⟩
          · intro _
            exact ⟨_, _, rfl⟩
        · intro s st h
          obtain ⟨hs, hst⟩ := ZPy.Outcome.won.inj h
          constructor
          · rw [← hs, hf2, hf3]
          · rw [← hst, ← hs, hf4]
        · constructor
          · rintro ⟨s, st, h⟩
            exact ZPy.Outcome.noConfusion h
          · intro h
            rw [hcomp.2] at h
            have hz : ZPy.escPenalty [] = 0 := rfl
            omega
        · intro s st h
          exact ZPy.Outcome.noConfusion h
      · have hrun : ZPy.updatePhase choice dists drops dkinds gs =
            ZPy.zombieLoop dists drops dkinds (ZPy.waveDone (ZPy.spawnInner choice gs))
              0 (ZPy.spawnInner choice gs).zombies []
              (ZPy.spawnInner choice gs).lives (ZPy.spawnInner choice gs).coins
              ((ZPy.spawnInner choice gs).score +
                100 * ((ZPy.spawnInner choice gs).wave : ℤ)) [] := by
          unfold ZPy.updatePhase ZPy.waveCheck
          rw [hsp, if_pos hcomp, if_neg hwave]
          simp only [if_true, eq_self_iff_true, reduceIte]
          rfl
        rw [hrun, hcomp.2]
        obtain ⟨hiff, hwon, hlost⟩ :=
          zombieLoop_spec dists drops dkinds (ZPy.waveDone (ZPy.spawnInner choice gs))
            [] 0 [] (ZPy.spawnInner choice gs).lives (ZPy.spawnInner choice gs).coins
            ((ZPy.spawnInner choice gs).score + 100 * ((ZPy.spawnInner choice gs).wave : ℤ)) []
            (lt_of_lt_of_eq hl hf1.symm)
        refine ⟨?_, ?_, ?_, ?_, zpy_load_save, hreach_won, hreach_lost⟩
        · constructor
          · rintro ⟨s, st, h⟩
            exact absurd h (hwon s st)
          · rintro ⟨_, _, _, hw⟩
            rw [← hf3] at hw
            exact absurd hw hwave
        · intro s st h
          exact absurd h (hwon s st)
        · rw [hiff]
          have hz : ZPy.escPenalty [] = 0 := rfl
          constructor
          · intro h
            omega
          · intro h
            omega
        · intro s st h
          have hst := hlost s st h
          have hwd : (ZPy.waveDone (ZPy.spawnInner choice gs)).store = gs.store := hf4
          rw [hst, hwd]
    · have hrun : ZPy.updatePhase choice dists drops dkinds gs =
          ZPy.zombieLoop dists drops dkinds (ZPy.spawnInner choice gs)
            0 (ZPy.spawnInner choice gs).zombies []
            (ZPy.spawnInner choice gs).lives (ZPy.spawnInner choice gs).coins
            (ZPy.spawnInner choice gs).score [] := by
        unfold ZPy.updatePhase ZPy.waveCheck
        rw [hsp, if_neg hcomp]
        simp
      rw [hrun]
      obtain ⟨hiff, hwon, hlost⟩ :=
        zombieLoop_spec dists drops dkinds (ZPy.spawnInner choice gs)
          (ZPy.spawnInner choice gs).zombies 0 []
          (ZPy.spawnInner choice gs).lives (ZPy.spawnInner choice gs).coins
          (ZPy.spawnInner choice gs).score []
          (lt_of_lt_of_eq hl hf1.symm)
      refine ⟨?_, ?_, ?_, ?_, zpy_load_save, hreach_won, hreach_lost⟩
      · constructor
        · rintro ⟨s, st, h⟩
          exact absurd h (hwon s st)
        · rintro ⟨_, h2, h3, _⟩
          exact absurd ⟨h2, h3⟩ hcomp
      · intro s st h
        exact absurd h (hwon s st)
      · rw [hiff, hf1]
      · intro s st h
        have hst := hlost s st h
        rw [hst, hf4]

/-- C8 witness: the termination characterisation applied to the
one-life state with an escaping zombie. -/
theorem c8_witness :
    ((∃ s st, ZPy.updatePhase ZPy.PKind.normal (fun _ => 0) (fun _ => false) (fun _ => false)
        c8lossGS = ZPy.Outcome.won s st) ↔
      (c8lossGS.spawning = true ∧
        (ZPy.spawnInner ZPy.PKind.normal c8lossGS).zombiesToSpawn ≤ 0 ∧
        (ZPy.spawnInner ZPy.PKind.normal c8lossGS).zombies = [] ∧
        ZPy.MAX_WAVES < c8lossGS.wave + 1)) ∧
    (∀ s st, ZPy.updatePhase ZPy.PKind.normal (fun _ => 0) (fun _ => false) (fun _ => false)
        c8lossGS = ZPy.Outcome.won s st →
      s = c8lossGS.score + 100 * (c8lossGS.wave : ℤ) ∧ st = ZPy.saveHS s c8lossGS.store) ∧
    ((∃ s st, ZPy.updatePhase ZPy.PKind.normal (fun _ => 0) (fun _ => false) (fun _ => false)
        c8lossGS = ZPy.Outcome.lost s st) ↔
      c8lossGS.lives ≤ ZPy.escPenalty (ZPy.postSpawn ZPy.PKind.normal c8lossGS).zombies) ∧
    (∀ s st, ZPy.updatePhase ZPy.PKind.normal (fun _ => 0) (fun _ => false) (fun _ => false)
        c8lossGS = ZPy.Outcome.lost s st →
      st = ZPy.saveHS s c8lossGS.store) ∧
    (∀ (sc : ℤ) (st : Option ℤ), ZPy.loadHS (ZPy.saveHS sc st) = max sc (ZPy.loadHS st)) ∧
    (∃ (gs' : ZPy.GS) (s : ℤ) (st : Option ℤ),
      ZPy.updatePhase ZPy.PKind.normal (fun _ => 0) (fun _ => false) (fun _ => false) gs' =
        ZPy.Outcome.won s st) ∧
    (∃ (gs' : ZPy.GS) (s : ℤ) (st : Option ℤ),
      ZPy.updatePhase ZPy.PKind.normal (fun _ => 0) (fun _ => false) (fun _ => false) gs' =
        ZPy.Outcome.lost s st) :=
  c8_termination ZPy.PKind.normal (fun _ => 0) (fun _ => false) (fun _ => false) c8lossGS
    (by norm_num [c8lossGS])

